import Mathlib

/-!
Verification of the geometric core of the mapillary street-view simulator.

The development embeds, over the real numbers, the geodesy and route-sampling
functions of `utils/calculations.ts`, the polyline decoder of
`utils/polyline.ts` (over the rationals; its arithmetic is exact 32-bit
integer arithmetic), the Mapillary image selector of `services/api.ts`, and
the coordinate parsing and deduplication logic of `App.tsx`.  JavaScript
numbers are idealised as real numbers; JavaScript strings are modelled as
lists of characters; external collaborators (the network fetch, the
`parseFloat` builtin) are modelled as explicit parameters.
-/

open Real

/-- Degrees to radians, as in the `toRadians` helper of `utils/calculations.ts`. -/
noncomputable def toRadians (degrees : ℝ) : ℝ := degrees * (π / 180)

/-- Radians to degrees, as in the `toDegrees` helper of `utils/calculations.ts`. -/
noncomputable def toDegrees (radians : ℝ) : ℝ := radians * (180 / π)

/-- JavaScript `Math.atan2(x, y)`: the argument of the complex number with real
part `y` and imaginary part `x`, in `(-π, π]`, with `atan2 0 0 = 0` — exactly
the convention of `Complex.arg`. -/
noncomputable def atan2 (x y : ℝ) : ℝ := Complex.arg ⟨y, x⟩

/-- JavaScript `a % b` for the uses in this code base.  JavaScript `%` is a
remainder whose sign follows the dividend; every dividend appearing in the
sources here is non-negative (it has the form `bearingDeg + 360` with
`bearingDeg ∈ (-180, 180]`), where JavaScript `%` agrees with the floor-based
remainder used here. -/
noncomputable def jsMod (a b : ℝ) : ℝ := a - b * (⌊a / b⌋ : ℤ)

/-- `calculateInitialCompassBearing` from `utils/calculations.ts`: initial
compass bearing from `pointA` to `pointB`, in degrees in `[0, 360)`.
Points are `(latitude, longitude)` pairs in degrees. -/
noncomputable def calculateInitialCompassBearing (pointA pointB : ℝ × ℝ) : ℝ :=
  let lat1 := toRadians pointA.1
  let lat2 := toRadians pointB.1
  let diffLong := toRadians (pointB.2 - pointA.2)
  let x := Real.sin diffLong * Real.cos lat2
  let y := Real.cos lat1 * Real.sin lat2 -
    Real.sin lat1 * Real.cos lat2 * Real.cos diffLong
  let initialBearing := atan2 x y
  jsMod (toDegrees initialBearing + 360) 360

/-- `distance` from `utils/calculations.ts`: haversine great-circle distance in
kilometres between two `(latitude, longitude)` points, mean Earth radius 6371 km. -/
noncomputable def distance (origin destination : ℝ × ℝ) : ℝ :=
  let lat1 := origin.1
  let lon1 := origin.2
  let lat2 := destination.1
  let lon2 := destination.2
  let radius : ℝ := 6371
  let dlat := toRadians (lat2 - lat1)
  let dlon := toRadians (lon2 - lon1)
  let a :=
    Real.sin (dlat / 2) * Real.sin (dlat / 2) +
      Real.cos (toRadians lat1) * Real.cos (toRadians lat2) *
        (Real.sin (dlon / 2) * Real.sin (dlon / 2))
  let c := 2 * atan2 (Real.sqrt a) (Real.sqrt (1 - a))
  radius * c

/-- `calculateDestinationPoint` from `utils/calculations.ts`: the point reached
from `point` after travelling `distanceKm` kilometres along the great circle
with initial bearing `bearing` (degrees). -/
noncomputable def calculateDestinationPoint (point : ℝ × ℝ) (bearing distanceKm : ℝ) :
    ℝ × ℝ :=
  let radius : ℝ := 6371
  let lat1 := toRadians point.1
  let lon1 := toRadians point.2
  let bearingRad := toRadians bearing
  let lat2 := Real.arcsin
    (Real.sin lat1 * Real.cos (distanceKm / radius) +
      Real.cos lat1 * Real.sin (distanceKm / radius) * Real.cos bearingRad)
  let lon2 := lon1 + atan2
    (Real.sin bearingRad * Real.sin (distanceKm / radius) * Real.cos lat1)
    (Real.cos (distanceKm / radius) - Real.sin lat1 * Real.sin lat2)
  (toDegrees lat2, toDegrees lon2)

/-- A waypoint produced by the route sampler: a coordinate together with the
bearing of the segment it lies on. -/
structure Waypoint where
  coord : ℝ × ℝ
  bearing : ℝ

/-- The per-segment lengths computed by the precomputation loop of
`generateEvenlySpacedPoints`: `distance routeCoords[i] routeCoords[i+1]` for
each consecutive pair. -/
noncomputable def segmentLengthsOf (routeCoords : List (ℝ × ℝ)) : List ℝ :=
  (routeCoords.zip routeCoords.tail).map fun p => distance p.1 p.2

/-- The `while` loop of `generateEvenlySpacedPoints`, with an explicit fuel
parameter standing for the number of loop iterations still allowed.  The state
is `(currentSegmentIndex, nextPointDistance, accumulatedDistance,
distanceIntoSegment, result)` exactly as in the source; `none` means the fuel
ran out before the loop guard became false (which, as proved below, cannot
happen for a positive spacing and the fuel chosen in `samplerRun`).  The
source also binds a dead local `fraction = distanceAlongSegment /
segmentLength`; being unused (and total in ℝ), it is omitted here. -/
noncomputable def loopGo (routeCoords : List (ℝ × ℝ)) (segmentLengths : List ℝ)
    (targetSpacingKm totalDistance : ℝ) :
    ℕ → ℕ → ℝ → ℝ → ℝ → List Waypoint → Option (List Waypoint)
  | 0, _, _, _, _, _ => none
  | fuel + 1, currentSegmentIndex, nextPointDistance, accumulatedDistance,
      distanceIntoSegment, result =>
    if nextPointDistance < totalDistance ∧
        currentSegmentIndex < routeCoords.length - 1 then
      let segmentLength := segmentLengths.getD currentSegmentIndex 0
      let remainingInSegment := segmentLength - distanceIntoSegment
      if nextPointDistance - accumulatedDistance ≤ remainingInSegment then
        let distanceAlongSegment :=
          distanceIntoSegment + (nextPointDistance - accumulatedDistance)
        let segmentStart := routeCoords.getD currentSegmentIndex (0, 0)
        let segmentEnd := routeCoords.getD (currentSegmentIndex + 1) (0, 0)
        let bearing := calculateInitialCompassBearing segmentStart segmentEnd
        let interpolatedCoord :=
          calculateDestinationPoint segmentStart bearing distanceAlongSegment
        loopGo routeCoords segmentLengths targetSpacingKm totalDistance fuel
          currentSegmentIndex (nextPointDistance + targetSpacingKm)
          accumulatedDistance distanceIntoSegment
          (result ++ [⟨interpolatedCoord, bearing⟩])
      else
        loopGo routeCoords segmentLengths targetSpacingKm totalDistance fuel
          (currentSegmentIndex + 1) nextPointDistance
          (accumulatedDistance + remainingInSegment) 0 result
    else some result

/-- Fuel that suffices for the sampler loop whenever the spacing is positive:
one unit per segment advance plus one per emitted point, plus slack. -/
noncomputable def samplerFuel (routeCoords : List (ℝ × ℝ))
    (totalDistance targetSpacingKm : ℝ) : ℕ :=
  routeCoords.length + (⌈totalDistance / targetSpacingKm⌉).toNat + 1

/-- The body of `generateEvenlySpacedPoints` after the length-two guard: the
precomputation of segment lengths and total distance, the initial waypoint,
and the sampling loop run with the canonical fuel. -/
noncomputable def samplerRun (routeCoords : List (ℝ × ℝ))
    (targetSpacingMeters : ℝ) : Option (List Waypoint) :=
  let targetSpacingKm := targetSpacingMeters / 1000
  let segmentLengths := segmentLengthsOf routeCoords
  let totalDistance := segmentLengths.sum
  let firstBearing :=
    calculateInitialCompassBearing (routeCoords.getD 0 (0, 0))
      (routeCoords.getD 1 (0, 0))
  loopGo routeCoords segmentLengths targetSpacingKm totalDistance
    (samplerFuel routeCoords totalDistance targetSpacingKm)
    0 targetSpacingKm 0 0 [⟨routeCoords.getD 0 (0, 0), firstBearing⟩]

/-- `generateEvenlySpacedPoints` from `utils/calculations.ts`.  For a spacing
that is not positive the source loop never terminates; this is represented by
the fuel running out, in which case the (never spec-relevant) default `[]` is
returned. -/
noncomputable def generateEvenlySpacedPoints (routeCoords : List (ℝ × ℝ))
    (targetSpacingMeters : ℝ := 20) : List Waypoint :=
  if routeCoords.length < 2 then []
  else (samplerRun routeCoords targetSpacingMeters).getD []

/-- The sign-folding step of the polyline decoder
(`result & 1 ? ~(result >> 1) : result >> 1` in `utils/polyline.ts`), on the
32-bit pattern `result` held as a natural number below `2^32`.  JavaScript
`>>` is an arithmetic (sign-extending) shift on the signed 32-bit view, i.e.
floor division by 2, and `~x = -x - 1`. -/
def zigzagDecode (result : ℕ) : ℤ :=
  let signed : ℤ := if result < 2 ^ 31 then (result : ℤ) else (result : ℤ) - 2 ^ 32
  let shifted : ℤ := Int.fdiv signed 2
  if result % 2 = 1 then -shifted - 1 else shifted

/-- One `do … while (byte >= 0x20)` group of the polyline decoder, reading from
the remaining list of character codes.  `byte = charCodeAt(index++) - 63`;
reading past the end of the string yields `NaN`, for which `NaN & 0x1f`
coerces to `0` (leaving `result` unchanged) and `NaN >= 0x20` is false (ending
the group), so the empty-list case ends the group with `result` unchanged.
JavaScript `(byte & 0x1f) << shift` masks the shift count to five bits and
truncates to 32 bits, modelled by `% 32` on the shift and `% 2^32` on the
chunk. -/
def decodeGroup : ℕ → ℕ → List ℕ → ℕ × List ℕ
  | _, result, [] => (result, [])
  | shift, result, code :: rest =>
    let byte : ℤ := (code : ℤ) - 63
    let result' := result ||| ((byte % 32).toNat <<< (shift % 32)) % 2 ^ 32
    if 32 ≤ byte then decodeGroup (shift + 5) result' rest else (result', rest)

/-- The outer `while (index < str.length)` loop of `decode` from
`utils/polyline.ts`: one latitude group and one longitude group per iteration,
cumulative sums divided by `factor`. -/
def decodeLoop (lat lng : ℤ) (factor : ℚ) : List ℕ → List (ℚ × ℚ)
  | [] => []
  | code :: rest =>
    let g1 := decodeGroup 0 0 (code :: rest)
    let latitudeChange := zigzagDecode g1.1
    let g2 := decodeGroup 0 0 g1.2
    let longitudeChange := zigzagDecode g2.1
    let lat' := lat + latitudeChange
    let lng' := lng + longitudeChange
    ((lat' : ℚ) / factor, (lng' : ℚ) / factor) :: decodeLoop lat' lng' factor g2.2
termination_by codes => codes.length
decreasing_by
  have aux : ∀ (l : List ℕ) (shift result : ℕ),
      ((decodeGroup shift result l).2).length ≤ l.length := by
    intro l
    induction l with
    | nil => intro shift result; simp [decodeGroup]
    | cons c cs ih =>
      intro shift result
      simp only [decodeGroup]
      split
      · exact le_trans (ih _ _) (by simp)
      · simp
  have aux2 : ∀ (c : ℕ) (cs : List ℕ) (shift result : ℕ),
      ((decodeGroup shift result (c :: cs)).2).length ≤ cs.length := by
    intro c cs shift result
    simp only [decodeGroup]
    split
    · exact aux _ _ _
    · simp
  calc ((decodeGroup 0 0 (decodeGroup 0 0 (code :: rest)).2).2).length
      ≤ ((decodeGroup 0 0 (code :: rest)).2).length := aux _ _ _
    _ ≤ rest.length := aux2 _ _ _ _
    _ < (code :: rest).length := by simp

/-- `decode` from `utils/polyline.ts`, on the character codes of the input
string, producing exact rational coordinates. -/
def decode (str : String) (precision : ℕ := 5) : List (ℚ × ℚ) :=
  let factor : ℚ := 10 ^ precision
  decodeLoop 0 0 factor (str.toList.map Char.toNat)

/-- A candidate image record as returned by the Mapillary `images` endpoint
(`services/api.ts`), with the fields the selector reads.  Optional fields model
JavaScript `undefined`; `geometry` holds the `[longitude, latitude]`
coordinates array. -/
structure RawImage where
  id : String
  is_pano : Bool
  thumb_2048_url : Option String
  computed_compass_angle : Option ℝ
  geometry : Option (ℝ × ℝ)

/-- The `MapillaryImage` interface of `services/api.ts`, as constructed from a
chosen best candidate. -/
structure MapillaryImage where
  id : String
  thumbUrl : String
  computedCompassAngle : Option ℝ
  geometry : Option (ℝ × ℝ)

/-- The object `{ id, thumbUrl, computedCompassAngle, geometry }` built from
the best candidate before `getMapillaryImage` returns (the thumb URL is known
to be a present, non-empty string by the truthiness filter). -/
def projectImage (image : RawImage) : MapillaryImage :=
  ⟨image.id, image.thumb_2048_url.getD (""), image.computed_compass_angle,
    image.geometry⟩

/-- JavaScript truthiness test `!s` for an optional string: `undefined` and the
empty string are falsy. -/
def jsFalsyStr : Option String → Bool
  | none => true
  | some s => s = ("")

/-- The planar degree-space distance
`Math.sqrt((imgLat - lat)^2 + (imgLon - lon)^2)` computed by the selector for a
candidate with geometry `(imgLon, imgLat)` against the target `(lat, lon)`. -/
noncomputable def planarDistance (coord : ℝ × ℝ) (imgLonLat : ℝ × ℝ) : ℝ :=
  Real.sqrt ((imgLonLat.2 - coord.1) ^ 2 + (imgLonLat.1 - coord.2) ^ 2)

/-- The heading-difference normalisation of the selector:
`|angle - heading|`, folded into `[0, 180]` by `360 - d` when `d > 180`. -/
noncomputable def normalizedAngleDiff (angle heading : ℝ) : ℝ :=
  let angleDiff := |angle - heading|
  if angleDiff > 180 then 360 - angleDiff else angleDiff

/-- The tail of the selector's per-candidate filter once a distance value is
fixed: the JavaScript-falsy check `!image.computed_compass_angle` (which
rejects a missing angle and an angle of exactly `0`), the 45° heading window,
and the score `angleDiff * 3 + distance * 10000`. -/
noncomputable def headingScore (heading : ℝ) (image : RawImage)
    (distanceVal : ℝ) : Option ℝ :=
  match image.computed_compass_angle with
  | none => none
  | some angle =>
    if angle = 0 then none
    else
      let angleDiff := normalizedAngleDiff angle heading
      if angleDiff > 45 then none
      else some (angleDiff * 3 + distanceVal * 10000)

/-- The whole per-candidate filter-and-score chain of the loop body in
`getMapillaryImage` (`services/api.ts`): skip panoramas and candidates with a
falsy thumb URL; when geometry is present compute the planar distance and
reject beyond `0.0002`; when geometry is absent keep the initialised default
distance `0.0001` with no threshold check; then the compass-angle filter and
score.  `none` means the candidate is skipped. -/
noncomputable def candidateScore (coord : ℝ × ℝ) (heading : ℝ)
    (image : RawImage) : Option ℝ :=
  if image.is_pano || jsFalsyStr image.thumb_2048_url then none
  else
    match image.geometry with
    | some imgLonLat =>
      if planarDistance coord imgLonLat > 0.0002 then none
      else headingScore heading image (planarDistance coord imgLonLat)
    | none => headingScore heading image 0.0001

/-- The best-candidate loop of `getMapillaryImage`: fold over the candidate
list keeping `(bestImage, bestScore)`, replacing the best only on a strictly
smaller score (`score < bestScore`, with the initial `bestScore = Infinity`
represented by `none`). -/
noncomputable def selLoop (coord : ℝ × ℝ) (heading : ℝ) :
    List RawImage → Option (RawImage × ℝ) → Option (RawImage × ℝ)
  | [], best => best
  | image :: rest, best =>
    match candidateScore coord heading image with
    | none => selLoop coord heading rest best
    | some score =>
      match best with
      | none => selLoop coord heading rest (some (image, score))
      | some best' =>
        if score < best'.2 then selLoop coord heading rest (some (image, score))
        else selLoop coord heading rest (some best')

/-- The outcome of the `fetch`/`response.ok`/`json()` prelude of
`getMapillaryImage`: `fail` covers a thrown network error, a non-ok response
(which the source turns into a `throw` caught by its own `try`/`catch`), and a
failing JSON parse; `ok d` carries the optional `data.data` candidate array. -/
inductive FetchResult where
  | fail
  | ok (data : Option (List RawImage))

/-- `getMapillaryImage` from `services/api.ts`, with the network outcome as an
explicit parameter: every failure path returns `null`, a present non-empty
candidate array is scanned by the selection loop, and a surviving best
candidate is projected onto the `MapillaryImage` interface. -/
noncomputable def getMapillaryImage (coord : ℝ × ℝ) (heading : ℝ)
    (response : FetchResult) : Option MapillaryImage :=
  match response with
  | .fail => none
  | .ok none => none
  | .ok (some data) =>
    (selLoop coord heading data none).map fun best => projectImage best.1

/-- `getMapillaryImagesBatch` from `services/api.ts`, value-level: the batching
and inter-batch delays only affect timing, so the result is the per-point
lookup applied in order, each with its own network outcome. -/
noncomputable def getMapillaryImagesBatch
    (points : List ((ℝ × ℝ) × ℝ)) (responses : List FetchResult) :
    List (Option MapillaryImage) :=
  List.zipWith (fun p r => getMapillaryImage p.1 p.2 r) points responses

/-- Specification-side selector, following §4.4 of the spec: score all
surviving candidates, then select the minimum-score candidate, resolving ties
in favour of the earliest candidate in input order. -/
noncomputable def selectorSpec (coord : ℝ × ℝ) (heading : ℝ)
    (candidates : List RawImage) : Option RawImage :=
  let scored := candidates.filterMap fun i =>
    (candidateScore coord heading i).map fun s => (i, s)
  (scored.find? fun p => decide (∀ q ∈ scored, p.2 ≤ q.2)).map Prod.fst

/-- `minImageDistanceKm` from `App.tsx`: 30 metres minimum between accepted
images. -/
noncomputable def minImageDistanceKm : ℝ := 0.03

/-- The accumulator of the image-deduplication loop in `handleFormSubmit`
(`App.tsx`): the parallel arrays `fetchedImages` / `fetchedCoordinates`, the
set of accepted identifiers (as a duplicate-free list) and the list of
accepted capture locations. -/
structure AccState where
  fetchedImages : List String
  fetchedCoordinates : List (ℝ × ℝ)
  usedImageIds : List String
  usedImageLocations : List (ℝ × ℝ)

/-- The empty accumulator at the start of a run. -/
def initialAccState : AccState := ⟨[], [], [], []⟩

/-- The per-batch result processing of `handleFormSubmit` (`App.tsx`), folded
over the stream of per-waypoint lookup results in batch order: a returned
image is accepted only when its identifier is new and its capture coordinate
`(imgLat, imgLon)` is at least `minImageDistanceKm` (haversine) from every
previously accepted location.  A returned image whose record carries no
geometry makes the source destructuring
`const [imgLon, imgLat] = imageData.geometry.coordinates` throw, aborting the
run with the accumulation so far as the final snapshot. -/
noncomputable def processBatchResults (st : AccState) :
    List (Option MapillaryImage) → AccState
  | [] => st
  | none :: rest => processBatchResults st rest
  | some imageData :: rest =>
    if st.usedImageIds.contains imageData.id then processBatchResults st rest
    else
      match imageData.geometry with
      | none => st
      | some imgLonLat =>
        let imageCoord : ℝ × ℝ := (imgLonLat.2, imgLonLat.1)
        if ∃ usedLocation ∈ st.usedImageLocations,
            distance imageCoord usedLocation < minImageDistanceKm then
          processBatchResults st rest
        else
          processBatchResults
            ⟨st.fetchedImages ++ [imageData.thumbUrl],
              st.fetchedCoordinates ++ [imageCoord],
              st.usedImageIds ++ [imageData.id],
              st.usedImageLocations ++ [imageCoord]⟩ rest

/-- JavaScript whitespace for `trim`, restricted to the usual ASCII blanks. -/
def isJsSpace (c : Char) : Bool :=
  c = (' ') || c = ('\t') || c = ('\n') || c = ('\r')

/-- JavaScript `String.prototype.trim` on a string modelled as a character
list. -/
def jsTrim (s : List Char) : List Char :=
  ((s.dropWhile isJsSpace).reverse.dropWhile isJsSpace).reverse

/-- JavaScript `String.prototype.split` with a single-character separator on a
string modelled as a character list: `jsSplit sep s` always returns at least
one part, and one extra part per separator occurrence. -/
def jsSplit (sep : Char) : List Char → List (List Char)
  | [] => [[]]
  | c :: rest =>
    let r := jsSplit sep rest
    if c = sep then [] :: r else (c :: r.headD []) :: r.tail

/-- Numeric value of a digit string. -/
def digitsVal (l : List Char) : ℚ :=
  l.foldl (fun acc c => acc * 10 + ((c.toNat - ('0').toNat : ℕ) : ℚ)) 0

/-- Models the JavaScript `parseFloat` builtin (a platform primitive, not
repository code) on plain decimal literals: optional leading whitespace,
optional sign, integer digits, optional fractional digits after a dot, parsing
the longest such prefix; `none` models `NaN` (no digits at all).  Exponent
notation is not modelled — no input exercised here uses it. -/
def parseFloatModel (s : List Char) : Option ℚ :=
  let t := s.dropWhile isJsSpace
  let signed : ℚ × List Char :=
    match t with
    | '-' :: r => (-1, r)
    | '+' :: r => (1, r)
    | _ => (1, t)
  let intPart := signed.2.takeWhile Char.isDigit
  let rest := signed.2.dropWhile Char.isDigit
  let fracPart :=
    match rest with
    | '.' :: r => r.takeWhile Char.isDigit
    | _ => []
  if intPart = [] ∧ fracPart = [] then none
  else some (signed.1 * (digitsVal intPart + digitsVal fracPart / 10 ^ fracPart.length))

/-- Result of `parseCoordinateInput` (`App.tsx`): a recognised `lat,lon` pair
normalised to the `lon,lat` order OSRM expects, the raw input passed through
for geocoding, or the thrown range error (carrying the offending numbers that
the source interpolates into its message). -/
inductive ParseResult where
  | coords (lon lat : ℚ)
  | raw (input : List Char)
  | invalid (lat lon : ℚ)
deriving DecidableEq

/-- `parseCoordinateInput` from `App.tsx`, with the `parseFloat` builtin as an
explicit parameter `pf`.  The input is trimmed; if it contains a comma and
splits into exactly two numeric parts, the first is taken as latitude and the
second as longitude, range-checked as such — valid pairs are returned swapped
into `lon,lat` order, out-of-range pairs throw; everything else is returned
as-is for geocoding. -/
def parseCoordinateInput (pf : List Char → Option ℚ) (input : List Char) :
    ParseResult :=
  let trimmed := jsTrim input
  if trimmed.contains (',') then
    let parts := (jsSplit (',') trimmed).map jsTrim
    if parts.length = 2 then
      match pf (parts.getD 0 []), pf (parts.getD 1 []) with
      | some lat, some lon =>
        if -90 ≤ lat ∧ lat ≤ 90 ∧ -180 ≤ lon ∧ lon ≤ 180 then
          ParseResult.coords lon lat
        else ParseResult.invalid lat lon
      | _, _ => ParseResult.raw input
    else ParseResult.raw input
  else ParseResult.raw input

/-- `isCoordinates` from `App.tsx`, with the `parseFloat` builtin as an
explicit parameter: exactly one comma, both trimmed parts numeric, and the two
numbers in valid ranges read either as `lat,lon` or as `lon,lat`. -/
def isCoordinates (pf : List Char → Option ℚ) (input : List Char) : Bool :=
  let trimmed := jsTrim input
  let parts := jsSplit (',') trimmed
  if parts.length ≠ 2 then false
  else
    match pf (jsTrim (parts.getD 0 [])), pf (jsTrim (parts.getD 1 [])) with
    | some first, some second =>
      decide ((-90 ≤ first ∧ first ≤ 90 ∧ -180 ≤ second ∧ second ≤ 180) ∨
        (-90 ≤ second ∧ second ≤ 90 ∧ -180 ≤ first ∧ first ≤ 180))
    | _, _ => false

/-- The invariant carried by the deduplication fold: accepted coordinates are
pairwise at least `minImageDistanceKm` apart, accepted identifiers are
duplicate-free, and the location list used for the distance checks is exactly
the accepted coordinate list. -/
def AccInv (st : AccState) : Prop :=
  List.Pairwise
    (fun c d => minImageDistanceKm ≤ distance c d ∧ minImageDistanceKm ≤ distance d c)
    st.fetchedCoordinates ∧
  st.usedImageIds.Nodup ∧
  st.usedImageLocations = st.fetchedCoordinates

/-- The scored survivor list: each candidate that passes all filters paired
with its score, in input order. -/
noncomputable def scoredOf (coord : ℝ × ℝ) (heading : ℝ) (l : List RawImage) :
    List (RawImage × ℝ) :=
  l.filterMap fun i => (candidateScore coord heading i).map fun s => (i, s)

/-- The latitude-sine subexpression `sin lat1 * cos(d/R) + cos lat1 * sin(d/R) * cos bearingRad` of `calculateDestinationPoint`, named for the analysis below. -/
noncomputable def gAux (φ θ δ : ℝ) : ℝ :=
  Real.sin φ * Real.cos δ + Real.cos φ * Real.sin δ * Real.cos θ

noncomputable def aAux (φ θ δ : ℝ) : ℝ := Real.sin θ * Real.sin δ * Real.cos φ

noncomputable def bAux (φ θ δ : ℝ) : ℝ := Real.cos δ - Real.sin φ * gAux φ θ δ

lemma decodeGroup_rem_length (l : List ℕ) :
    ∀ shift result : ℕ, ((decodeGroup shift result l).2).length ≤ l.length := by
  induction l with
  | nil => intro shift result; simp [decodeGroup]
  | cons c cs ih =>
    intro shift result
    simp only [decodeGroup]
    split
    · exact le_trans (ih _ _) (by simp)
    · simp

lemma decodeGroup_rem_length_cons (c : ℕ) (cs : List ℕ) (shift result : ℕ) :
    ((decodeGroup shift result (c :: cs)).2).length ≤ cs.length := by
  simp only [decodeGroup]
  split
  · exact decodeGroup_rem_length _ _ _
  · simp

lemma decodeLoop_length_aux :
    ∀ (n : ℕ) (codes : List ℕ), codes.length ≤ n → ∀ (lat lng : ℤ) (factor : ℚ),
      (decodeLoop lat lng factor codes).length ≤ codes.length := by
  intro n
  induction n with
  | zero =>
    intro codes h lat lng factor
    have : codes = [] := List.length_eq_zero.mp (Nat.le_zero.mp h)
    subst this
    simp [decodeLoop]
  | succ n ih =>
    intro codes h lat lng factor
    match codes with
    | [] => simp [decodeLoop]
    | code :: rest =>
      rw [decodeLoop]
      simp only [List.length_cons]
      have h1 : ((decodeGroup 0 0 (decodeGroup 0 0 (code :: rest)).2).2).length ≤
          rest.length :=
        le_trans (decodeGroup_rem_length _ _ _) (decodeGroup_rem_length_cons _ _ _ _)
      have h2 := ih ((decodeGroup 0 0 (decodeGroup 0 0 (code :: rest)).2).2)
        (by simp only [List.length_cons] at h; omega)
        (lat + zigzagDecode (decodeGroup 0 0 (code :: rest)).1)
        (lng + zigzagDecode (decodeGroup 0 0 (decodeGroup 0 0 (code :: rest)).2).1)
        factor
      omega

lemma decodeLoop_length (lat lng : ℤ) (factor : ℚ) (codes : List ℕ) :
    (decodeLoop lat lng factor codes).length ≤ codes.length :=
  decodeLoop_length_aux codes.length codes le_rfl lat lng factor

/-- Claim C4 (counterexample): the input consisting of the single character
`_` (code 95, whose byte `32` demands a continuation that is missing) ends in
the middle of a variable-length byte group, yet `decode` raises no error: the
out-of-range read behaves as `NaN`, the truncated group terminates, and a
coordinate sequence `[(0, 0)]` is returned. -/
theorem decode_truncated_returns_coords : decode ("_") = [((0 : ℚ), (0 : ℚ))] := by
  have h : decode ("_") = decodeLoop 0 0 ((10 : ℚ) ^ 5) [95] := by rfl
  rw [h, decodeLoop]
  norm_num [decodeGroup, zigzagDecode, Int.fdiv]
  rw [decodeLoop]

/-- Claim C4 (amended): `decode` is total and never raises; the empty string
yields the empty sequence, and every input — including strings ending in the
middle of a byte group, which decode the truncated group as if it had ended —
yields a finite coordinate sequence no longer than the input. -/
theorem decode_behavior :
    decode ("") = [] ∧ ∀ s : String, (decode s).length ≤ s.length := by
  refine ⟨by simp [decode, decodeLoop], fun s => ?_⟩
  have h := decodeLoop_length 0 0 ((10 : ℚ) ^ 5) (s.toList.map Char.toNat)
  have e1 : decode s = decodeLoop 0 0 ((10 : ℚ) ^ 5) (s.toList.map Char.toNat) := rfl
  have e2 : s.length = s.toList.length := rfl
  rw [e1, e2]
  simpa using h

/-- Claim C6: a transport- or provider-level failure during a per-waypoint
lookup is absorbed inside `getMapillaryImage` and surfaces as `none`; the
batch fetch threads such a `none` through without failing, and the
orchestrator's accumulation loop skips a `none` result and continues with the
remaining results — a failed lookup never aborts the pipeline. -/
theorem image_lookup_failure_isolated :
    (∀ (coord : ℝ × ℝ) (heading : ℝ),
        getMapillaryImage coord heading FetchResult.fail = none) ∧
    (∀ (p : (ℝ × ℝ) × ℝ) (points : List ((ℝ × ℝ) × ℝ))
        (responses : List FetchResult),
        getMapillaryImagesBatch (p :: points) (FetchResult.fail :: responses) =
          none :: getMapillaryImagesBatch points responses) ∧
    (∀ (st : AccState) (rest : List (Option MapillaryImage)),
        processBatchResults st (none :: rest) = processBatchResults st rest) := by
  refine ⟨fun coord heading => rfl, fun p points responses => ?_, fun st rest => rfl⟩
  simp [getMapillaryImagesBatch, getMapillaryImage]

lemma distance_symm (A B : ℝ × ℝ) : distance A B = distance B A := by
  have key :
      Real.sin (toRadians (A.1 - B.1) / 2) * Real.sin (toRadians (A.1 - B.1) / 2) +
        Real.cos (toRadians B.1) * Real.cos (toRadians A.1) *
          (Real.sin (toRadians (A.2 - B.2) / 2) *
            Real.sin (toRadians (A.2 - B.2) / 2)) =
      Real.sin (toRadians (B.1 - A.1) / 2) * Real.sin (toRadians (B.1 - A.1) / 2) +
        Real.cos (toRadians A.1) * Real.cos (toRadians B.1) *
          (Real.sin (toRadians (B.2 - A.2) / 2) *
            Real.sin (toRadians (B.2 - A.2) / 2)) := by
    have h1 : toRadians (A.1 - B.1) / 2 = -(toRadians (B.1 - A.1) / 2) := by
      simp only [toRadians]; ring
    have h2 : toRadians (A.2 - B.2) / 2 = -(toRadians (B.2 - A.2) / 2) := by
      simp only [toRadians]; ring
    rw [h1, h2]
    simp only [Real.sin_neg]
    ring
  simp only [distance]
  rw [show toRadians (A.1 - B.1) = toRadians (A.1 - B.1) from rfl]
  rw [key]

lemma processBatchResults_inv :
    ∀ (results : List (Option MapillaryImage)) (st : AccState), AccInv st →
      AccInv (processBatchResults st results) := by
  intro results
  induction results with
  | nil => intro st h; exact h
  | cons r rest ih =>
    intro st h
    match r with
    | none => exact ih st h
    | some imageData =>
      rw [processBatchResults]
      by_cases hid : st.usedImageIds.contains imageData.id
      · rw [if_pos hid]; exact ih st h
      · rw [if_neg hid]
        match hg : imageData.geometry with
        | none => exact h
        | some imgLonLat =>
          dsimp only
          by_cases hclose : ∃ usedLocation ∈ st.usedImageLocations,
              distance (imgLonLat.2, imgLonLat.1) usedLocation < minImageDistanceKm
          · rw [if_pos hclose]; exact ih st h
          · rw [if_neg hclose]
            apply ih
            obtain ⟨hpw, hnodup, hloc⟩ := h
            push_neg at hclose
            refine ⟨?_, ?_, by simp [hloc]⟩
            · rw [List.pairwise_append]
              refine ⟨hpw, by simp, ?_⟩
              intro a ha b hb
              simp only [List.mem_singleton] at hb
              subst hb
              have hfar := hclose a (hloc ▸ ha)
              exact ⟨by rw [distance_symm]; exact hfar, hfar⟩
            · rw [List.nodup_append]
              refine ⟨hnodup, by simp, ?_⟩
              intro a ha
              simp only [List.mem_singleton]
              intro hb
              subst hb
              exact hid (by simpa using ha)

/-- Claim C3: for any stream of per-waypoint lookup results processed by the
orchestrator's deduplication loop, the final accumulated capture coordinates
are pairwise (in both orders) at least `minImageDistanceKm = 0.03` km apart by
haversine distance, and no accepted image identifier appears twice.  (By
construction of `processBatchResults`, an image is accepted only when its
identifier is new and it is far enough from every previously accepted
image.) -/
theorem dedup_invariant (results : List (Option MapillaryImage)) :
    List.Pairwise
      (fun c d =>
        minImageDistanceKm ≤ distance c d ∧ minImageDistanceKm ≤ distance d c)
      (processBatchResults initialAccState results).fetchedCoordinates ∧
    (processBatchResults initialAccState results).usedImageIds.Nodup := by
  have h := processBatchResults_inv results initialAccState
    (by refine ⟨by simp [initialAccState], by simp [initialAccState], rfl⟩)
  exact ⟨h.1, h.2.1⟩

lemma jsSplit_ne_nil (sep : Char) (l : List Char) : jsSplit sep l ≠ [] := by
  cases l with
  | nil => simp [jsSplit]
  | cons c rest => simp only [jsSplit]; split <;> simp

lemma contains_of_jsSplit_pair :
    ∀ {t p q : List Char}, jsSplit (',') t = [p, q] → t.contains (',') = true := by
  intro t
  induction t with
  | nil => intro p q h; simp [jsSplit] at h
  | cons c rest ih =>
    intro p q h
    simp only [jsSplit] at h
    by_cases hc : c = ','
    · subst hc; simp [List.contains_cons]
    · rw [if_neg hc] at h
      have hne := jsSplit_ne_nil (',') rest
      match hr : jsSplit (',') rest with
      | [] => exact absurd hr hne
      | a :: tail =>
        rw [hr] at h
        simp only [List.headD_cons, List.tail_cons, List.cons.injEq] at h
        obtain ⟨h1, h2⟩ := h
        have hmem := ih (p := a) (q := q) (by rw [hr, h2])
        simp only [List.contains_cons, Bool.or_eq_true, beq_iff_eq]
        right
        simpa using hmem

lemma isCoordinates_eval (pf : List Char → Option ℚ)
    (input p q : List Char) (a b : ℚ)
    (hsplit : jsSplit (',') (jsTrim input) = [p, q])
    (ha : pf (jsTrim p) = some a) (hb : pf (jsTrim q) = some b) :
    isCoordinates pf input = true ↔
      ((-90 ≤ a ∧ a ≤ 90 ∧ -180 ≤ b ∧ b ≤ 180) ∨
        (-90 ≤ b ∧ b ≤ 90 ∧ -180 ≤ a ∧ a ≤ 180)) := by
  simp [isCoordinates, hsplit, ha, hb, and_assoc]

lemma parseCoordinateInput_eval (pf : List Char → Option ℚ)
    (input p q : List Char) (a b : ℚ)
    (hsplit : jsSplit (',') (jsTrim input) = [p, q])
    (ha : pf (jsTrim p) = some a) (hb : pf (jsTrim q) = some b) :
    parseCoordinateInput pf input =
      if -90 ≤ a ∧ a ≤ 90 ∧ -180 ≤ b ∧ b ≤ 180 then ParseResult.coords b a
      else ParseResult.invalid a b := by
  have hmem : (',') ∈ jsTrim input := by
    simpa using contains_of_jsSplit_pair hsplit
  simp [parseCoordinateInput, hmem, hsplit, ha, hb]

lemma parseFloatModel_100 : parseFloatModel [('1'), ('0'), ('0')] = some 100 := by
  have h : parseFloatModel [('1'), ('0'), ('0')] =
      some ((1 : ℚ) * (digitsVal [('1'), ('0'), ('0')] +
        digitsVal [] / 10 ^ (0 : ℕ))) := rfl
  rw [h]
  norm_num [digitsVal, show ('1').toNat - ('0').toNat = 1 from by decide,
    show ('0').toNat - ('0').toNat = 0 from by decide]

lemma parseFloatModel_45 : parseFloatModel [('4'), ('5')] = some 45 := by
  have h : parseFloatModel [('4'), ('5')] =
      some ((1 : ℚ) * (digitsVal [('4'), ('5')] + digitsVal [] / 10 ^ (0 : ℕ))) := rfl
  rw [h]
  norm_num [digitsVal, show ('4').toNat - ('0').toNat = 4 from by decide,
    show ('5').toNat - ('0').toNat = 5 from by decide]

lemma parseFloatModel_10 : parseFloatModel [('1'), ('0')] = some 10 := by
  have h : parseFloatModel [('1'), ('0')] =
      some ((1 : ℚ) * (digitsVal [('1'), ('0')] + digitsVal [] / 10 ^ (0 : ℕ))) := rfl
  rw [h]
  norm_num [digitsVal, show ('1').toNat - ('0').toNat = 1 from by decide,
    show ('0').toNat - ('0').toNat = 0 from by decide]

lemma parseFloatModel_20 : parseFloatModel [('2'), ('0')] = some 20 := by
  have h : parseFloatModel [('2'), ('0')] =
      some ((1 : ℚ) * (digitsVal [('2'), ('0')] + digitsVal [] / 10 ^ (0 : ℕ))) := rfl
  rw [h]
  norm_num [digitsVal, show ('2').toNat - ('0').toNat = 2 from by decide,
    show ('0').toNat - ('0').toNat = 0 from by decide]

/-- Claim C7 (counterexample): the input `100,45` is classified as
already-coordinates by `isCoordinates` (it is valid read as `lon,lat`), yet
`parseCoordinateInput` — which range-checks strictly in `lat,lon` order —
throws the invalid-range error instead of succeeding. -/
theorem parse_lonlat_order_cex :
    isCoordinates parseFloatModel (("100,45").toList) = true ∧
    parseCoordinateInput parseFloatModel (("100,45").toList) =
      ParseResult.invalid 100 45 := by
  have hsplit : jsSplit (',') (jsTrim (("100,45").toList)) =
      [[('1'), ('0'), ('0')], [('4'), ('5')]] := by decide
  have ha : parseFloatModel (jsTrim [('1'), ('0'), ('0')]) = some 100 := by
    rw [show jsTrim [('1'), ('0'), ('0')] = [('1'), ('0'), ('0')] from by decide]
    exact parseFloatModel_100
  have hb : parseFloatModel (jsTrim [('4'), ('5')]) = some 45 := by
    rw [show jsTrim [('4'), ('5')] = [('4'), ('5')] from by decide]
    exact parseFloatModel_45
  constructor
  · rw [isCoordinates_eval parseFloatModel _ _ _ 100 45 hsplit ha hb]
    norm_num
  · rw [parseCoordinateInput_eval parseFloatModel _ _ _ 100 45 hsplit ha hb]
    norm_num

/-- Claim C7 (amended): an input that splits (after trimming) into exactly two
numeric parts is classified as already-coordinates iff the two numbers are in
valid ranges read as `lat,lon` or as `lon,lat`; but parsing succeeds only when
the input is valid read as `lat,lon` (first number a latitude, second a
longitude), in which case the pair is normalised to the canonical `lon,lat`
order expected downstream — a classified input valid only in `lon,lat` order
throws the invalid-range error instead of being normalised. -/
theorem parse_classified_coordinates (pf : List Char → Option ℚ)
    (input p q : List Char) (a b : ℚ)
    (hsplit : jsSplit (',') (jsTrim input) = [p, q])
    (ha : pf (jsTrim p) = some a) (hb : pf (jsTrim q) = some b) :
    (isCoordinates pf input = true ↔
      ((-90 ≤ a ∧ a ≤ 90 ∧ -180 ≤ b ∧ b ≤ 180) ∨
        (-90 ≤ b ∧ b ≤ 90 ∧ -180 ≤ a ∧ a ≤ 180))) ∧
    ((-90 ≤ a ∧ a ≤ 90 ∧ -180 ≤ b ∧ b ≤ 180) →
      parseCoordinateInput pf input = ParseResult.coords b a) ∧
    (¬(-90 ≤ a ∧ a ≤ 90 ∧ -180 ≤ b ∧ b ≤ 180) →
      parseCoordinateInput pf input = ParseResult.invalid a b) := by
  refine ⟨isCoordinates_eval pf input p q a b hsplit ha hb, fun h => ?_, fun h => ?_⟩
  · rw [parseCoordinateInput_eval pf input p q a b hsplit ha hb, if_pos h]
  · rw [parseCoordinateInput_eval pf input p q a b hsplit ha hb, if_neg h]

/-- Claim C7 (witness): the concrete classified input `10,20` parses without
error to the normalised pair `lon = 20, lat = 10`. -/
theorem parse_classified_coordinates_witness :
    parseCoordinateInput parseFloatModel (("10,20").toList) =
      ParseResult.coords 20 10 :=
  (parse_classified_coordinates parseFloatModel (("10,20").toList)
    [('1'), ('0')] [('2'), ('0')] 10 20 (by decide)
    (by rw [show jsTrim [('1'), ('0')] = [('1'), ('0')] from by decide]
        exact parseFloatModel_10)
    (by rw [show jsTrim [('2'), ('0')] = [('2'), ('0')] from by decide]
        exact parseFloatModel_20)).2.1 (by norm_num)

lemma find?_congr {α : Type} {f g : α → Bool} :
    ∀ {l : List α}, (∀ x ∈ l, f x = g x) → l.find? f = l.find? g := by
  intro l
  induction l with
  | nil => intro _; rfl
  | cons a t ih =>
    intro h
    simp only [List.find?]
    rw [h a (List.mem_cons_self a t)]
    cases hg : g a with
    | true => rfl
    | false => exact ih fun x hx => h x (List.mem_cons_of_mem a hx)

lemma scoredOf_cons_none {coord heading i l} (h : candidateScore coord heading i = none) :
    scoredOf coord heading (i :: l) = scoredOf coord heading l := by
  simp [scoredOf, h]

lemma scoredOf_cons_some {coord heading i l sc}
    (h : candidateScore coord heading i = some sc) :
    scoredOf coord heading (i :: l) = (i, sc) :: scoredOf coord heading l := by
  simp [scoredOf, h]

lemma selLoop_acc (coord : ℝ × ℝ) (heading : ℝ) :
    ∀ (l : List RawImage) (b : RawImage × ℝ),
      selLoop coord heading l (some b) =
        if ∀ q ∈ scoredOf coord heading l, b.2 ≤ q.2 then some b
        else (scoredOf coord heading l).find? fun p =>
          decide (p.2 < b.2 ∧ ∀ q ∈ scoredOf coord heading l, p.2 ≤ q.2) := by
  intro l
  induction l with
  | nil => intro b; simp [selLoop, scoredOf]
  | cons i rest ih =>
    intro b
    cases hcs : candidateScore coord heading i with
    | none =>
      rw [show selLoop coord heading (i :: rest) (some b) =
        selLoop coord heading rest (some b) from by simp [selLoop, hcs]]
      rw [ih b, scoredOf_cons_none hcs]
    | some sc =>
      rw [scoredOf_cons_some hcs]
      by_cases hlt : sc < b.2
      · rw [show selLoop coord heading (i :: rest) (some b) =
          selLoop coord heading rest (some (i, sc)) from by simp [selLoop, hcs, hlt]]
        rw [ih (i, sc)]
        have hcond : ¬ ∀ q ∈ (i, sc) :: scoredOf coord heading rest, b.2 ≤ q.2 := by
          intro hall
          exact absurd (hall (i, sc) (List.mem_cons_self _ _)) (by simpa using hlt)
        rw [if_neg hcond]
        by_cases hall : ∀ q ∈ scoredOf coord heading rest, sc ≤ q.2
        · rw [if_pos hall]
          rw [List.find?_cons_of_pos]
          simp only [decide_eq_true_eq]
          exact ⟨hlt, fun q hq => by
            rcases List.mem_cons.mp hq with h | h
            · subst h; rfl
            · exact hall q h⟩
        · rw [if_neg hall]
          rw [List.find?_cons_of_neg]
          · push_neg at hall
            obtain ⟨q0, hq0, hq0lt⟩ := hall
            apply find?_congr
            intro p hp
            apply decide_eq_decide.mpr
            constructor
            · intro ⟨h1, h2⟩
              refine ⟨lt_trans (lt_of_le_of_lt (h2 q0 hq0) hq0lt) hlt, ?_⟩
              intro q hq
              rcases List.mem_cons.mp hq with h | h
              · subst h; exact le_of_lt (lt_of_le_of_lt (h2 q0 hq0) hq0lt)
              · exact h2 q h
            · intro ⟨h1, h2⟩
              exact ⟨lt_of_le_of_lt (h2 q0 (List.mem_cons_of_mem _ hq0)) hq0lt,
                fun q hq => h2 q (List.mem_cons_of_mem _ hq)⟩
          · simp only [decide_eq_true_eq, not_and]
            intro _
            push_neg at hall
            obtain ⟨q0, hq0, hq0lt⟩ := hall
            intro hforall
            exact absurd (hforall q0 (List.mem_cons_of_mem _ hq0)) (not_le.mpr hq0lt)
      · rw [show selLoop coord heading (i :: rest) (some b) =
          selLoop coord heading rest (some b) from by simp [selLoop, hcs, hlt]]
        rw [ih b]
        have hble : b.2 ≤ sc := not_lt.mp hlt
        by_cases hall : ∀ q ∈ scoredOf coord heading rest, b.2 ≤ q.2
        · rw [if_pos hall, if_pos]
          intro q hq
          rcases List.mem_cons.mp hq with h | h
          · subst h; exact hble
          · exact hall q h
        · rw [if_neg hall, if_neg (by
            intro hforall
            exact hall fun q hq => hforall q (List.mem_cons_of_mem _ hq))]
          rw [List.find?_cons_of_neg]
          · push_neg at hall
            obtain ⟨q0, hq0, hq0lt⟩ := hall
            apply find?_congr
            intro p hp
            apply decide_eq_decide.mpr
            constructor
            · intro ⟨h1, h2⟩
              refine ⟨h1, ?_⟩
              intro q hq
              rcases List.mem_cons.mp hq with h | h
              · subst h
                exact le_trans (h2 q0 hq0) (le_trans (le_of_lt hq0lt) hble)
              · exact h2 q h
            · intro ⟨h1, h2⟩
              exact ⟨h1, fun q hq => h2 q (List.mem_cons_of_mem _ hq)⟩
          · simp only [decide_eq_true_eq, not_and]
            intro hsclt
            exact absurd hsclt (not_lt.mpr hble)

lemma selLoop_none_eq (coord : ℝ × ℝ) (heading : ℝ) :
    ∀ l : List RawImage,
      selLoop coord heading l none =
        (scoredOf coord heading l).find? fun p =>
          decide (∀ q ∈ scoredOf coord heading l, p.2 ≤ q.2) := by
  intro l
  induction l with
  | nil => rfl
  | cons i rest ih =>
    cases hcs : candidateScore coord heading i with
    | none =>
      rw [show selLoop coord heading (i :: rest) none =
        selLoop coord heading rest none from by simp [selLoop, hcs]]
      rw [ih, scoredOf_cons_none hcs]
    | some sc =>
      rw [show selLoop coord heading (i :: rest) none =
        selLoop coord heading rest (some (i, sc)) from by simp [selLoop, hcs]]
      rw [selLoop_acc coord heading rest (i, sc), scoredOf_cons_some hcs]
      by_cases hall : ∀ q ∈ scoredOf coord heading rest, sc ≤ q.2
      · rw [if_pos hall]
        rw [List.find?_cons_of_pos]
        simp only [decide_eq_true_eq]
        intro q hq
        rcases List.mem_cons.mp hq with h | h
        · subst h; rfl
        · exact hall q h
      · rw [if_neg hall]
        rw [List.find?_cons_of_neg]
        · push_neg at hall
          obtain ⟨q0, hq0, hq0lt⟩ := hall
          apply find?_congr
          intro p hp
          apply decide_eq_decide.mpr
          constructor
          · intro ⟨h1, h2⟩
            intro q hq
            rcases List.mem_cons.mp hq with h | h
            · subst h; exact le_of_lt (lt_of_le_of_lt (h2 q0 hq0) hq0lt)
            · exact h2 q h
          · intro h2
            exact ⟨lt_of_le_of_lt (h2 q0 (List.mem_cons_of_mem _ hq0)) hq0lt,
              fun q hq => h2 q (List.mem_cons_of_mem _ hq)⟩
        · simp only [decide_eq_true_eq, not_forall]
          push_neg at hall
          obtain ⟨q0, hq0, hq0lt⟩ := hall
          exact ⟨q0, List.mem_cons_of_mem _ hq0, not_le.mpr hq0lt⟩

/-- Claim C2: on a successful fetch, `getMapillaryImage` returns exactly the
specification selector's choice — each surviving candidate scored as
`angleDiff * 3 + distance * 10000`, the minimum-score candidate selected, ties
resolved in favour of the earliest candidate in input order (the loop replaces
the best only on a strictly smaller score) — projected onto the
`MapillaryImage` interface; and it returns `none` when the response carries no
candidate array (`selectorSpec` itself yields `none` on an empty candidate
list or when no candidate survives filtering). -/
theorem selector_matches_spec (coord : ℝ × ℝ) (heading : ℝ)
    (imgs : List RawImage) :
    getMapillaryImage coord heading (FetchResult.ok (some imgs)) =
      (selectorSpec coord heading imgs).map projectImage ∧
    getMapillaryImage coord heading (FetchResult.ok none) = none := by
  constructor
  · show (selLoop coord heading imgs none).map (fun best => projectImage best.1) =
      (selectorSpec coord heading imgs).map projectImage
    rw [selLoop_none_eq]
    simp only [selectorSpec, Option.map_map]
    rfl
  · rfl

lemma headingScore_none_iff (heading : ℝ) (image : RawImage) (d : ℝ)
    (h4 : ∀ a, image.computed_compass_angle = some a →
      ¬ normalizedAngleDiff a heading > 45) :
    headingScore heading image d = none ↔
      (image.computed_compass_angle = none ∨
        image.computed_compass_angle = some 0) := by
  cases hca : image.computed_compass_angle with
  | none => simp [headingScore, hca]
  | some a =>
    by_cases h0 : a = 0
    · subst h0; simp [headingScore, hca]
    · simp [headingScore, hca, h0, h4 a hca]

/-- Claim C8 (counterexample): a candidate that reports a compass angle of
exactly `0` degrees — and passes every other filter — is rejected by the
selector's JavaScript-falsy check `!image.computed_compass_angle`, so the
selector returns `none` although the candidate does not lack a compass
angle. -/
theorem compass_zero_rejected_cex :
    (RawImage.mk ("i") false (some ("u")) (some 0) none).computed_compass_angle =
      some 0 ∧
    getMapillaryImage (0, 0) 0 (FetchResult.ok
      (some [RawImage.mk ("i") false (some ("u")) (some 0) none])) = none := by
  refine ⟨rfl, ?_⟩
  show (selLoop (0, 0) 0 [RawImage.mk ("i") false (some ("u")) (some 0) none]
    none).map (fun best => projectImage best.1) = none
  simp [selLoop, candidateScore, jsFalsyStr, headingScore]

/-- Claim C8 (amended): for a candidate that passes the panorama/thumb filter,
the distance check, and the 45° heading window, the compass-angle filter
rejects it iff the reported angle is JavaScript-falsy: either absent or
exactly `0` degrees.  In particular a candidate whose compass angle is exactly
`0` IS rejected by this check. -/
theorem compass_filter_falsy (coord : ℝ × ℝ) (heading : ℝ) (image : RawImage)
    (h1 : image.is_pano = false)
    (h2 : jsFalsyStr image.thumb_2048_url = false)
    (h3 : ∀ ll, image.geometry = some ll → ¬ planarDistance coord ll > 0.0002)
    (h4 : ∀ a, image.computed_compass_angle = some a →
      ¬ normalizedAngleDiff a heading > 45) :
    candidateScore coord heading image = none ↔
      (image.computed_compass_angle = none ∨
        image.computed_compass_angle = some 0) := by
  cases hg : image.geometry with
  | none =>
    rw [show candidateScore coord heading image =
      headingScore heading image 0.0001 from by simp [candidateScore, h1, h2, hg]]
    exact headingScore_none_iff heading image 0.0001 h4
  | some ll =>
    rw [show candidateScore coord heading image =
      headingScore heading image (planarDistance coord ll) from by
        simp [candidateScore, h1, h2, hg, h3 ll hg]]
    exact headingScore_none_iff heading image (planarDistance coord ll) h4

/-- Claim C8 (witness): a concrete candidate with compass angle exactly `0`
(and all other filters satisfied) is rejected. -/
theorem compass_filter_falsy_witness :
    candidateScore (0, 0) 0 (RawImage.mk ("j") false (some ("u")) (some 0) none) =
      none :=
  (compass_filter_falsy (0, 0) 0
    (RawImage.mk ("j") false (some ("u")) (some 0) none) rfl (by decide)
    (fun ll hll => by simp at hll)
    (fun a ha => by
      simp only [Option.some.injEq] at ha
      subst ha
      norm_num [normalizedAngleDiff])).mpr (Or.inr rfl)

/-- Claim C10: a candidate whose record lacks geometry coordinates skips the
distance-threshold check entirely: it is scored with the fixed default planar
distance `0.0001` (contributing `0.0001 * 10000 = 1` to the score), and — as
the sole candidate — it is selected as the best match. -/
theorem missing_geometry_scored (coord : ℝ × ℝ) (heading : ℝ)
    (image : RawImage) (angle : ℝ)
    (h1 : image.is_pano = false)
    (h2 : jsFalsyStr image.thumb_2048_url = false)
    (h3 : image.geometry = none)
    (h4 : image.computed_compass_angle = some angle) (h5 : angle ≠ 0)
    (h6 : ¬ normalizedAngleDiff angle heading > 45) :
    candidateScore coord heading image =
      some (normalizedAngleDiff angle heading * 3 + 0.0001 * 10000) ∧
    getMapillaryImage coord heading (FetchResult.ok (some [image])) =
      some (projectImage image) := by
  have hscore : candidateScore coord heading image =
      some (normalizedAngleDiff angle heading * 3 + 0.0001 * 10000) := by
    simp [candidateScore, h1, h2, h3, headingScore, h4, h5, h6]
  refine ⟨hscore, ?_⟩
  show (selLoop coord heading [image] none).map (fun best => projectImage best.1) =
    some (projectImage image)
  simp [selLoop, hscore]

/-- Claim C10 (witness): a concrete candidate without geometry, with compass
angle 10 against desired heading 10, scores `0 * 3 + 0.0001 * 10000` and is
selected. -/
theorem missing_geometry_scored_witness :
    candidateScore (0, 0) 10 (RawImage.mk ("k") false (some ("u")) (some 10) none) =
      some (normalizedAngleDiff 10 10 * 3 + 0.0001 * 10000) ∧
    getMapillaryImage (0, 0) 10 (FetchResult.ok
      (some [RawImage.mk ("k") false (some ("u")) (some 10) none])) =
      some (projectImage (RawImage.mk ("k") false (some ("u")) (some 10) none)) :=
  missing_geometry_scored (0, 0) 10
    (RawImage.mk ("k") false (some ("u")) (some 10) none) 10 rfl (by decide) rfl
    rfl (by norm_num) (by norm_num [normalizedAngleDiff])

lemma loopGo_isSome (routeCoords : List (ℝ × ℝ)) (segLens : List ℝ)
    {sKm : ℝ} (total : ℝ) (hs : 0 < sKm) :
    ∀ (fuel idx : ℕ) (next accD dInto : ℝ) (res : List Waypoint),
      routeCoords.length - 1 - idx + (⌈(total - next) / sKm⌉).toNat < fuel →
      (loopGo routeCoords segLens sKm total fuel idx next accD dInto res).isSome := by
  intro fuel
  induction fuel with
  | zero => intro idx next accD dInto res h; omega
  | succ fuel ih =>
    intro idx next accD dInto res h
    rw [loopGo]
    by_cases hguard : next < total ∧ idx < routeCoords.length - 1
    · rw [if_pos hguard]
      by_cases hseg : next - accD ≤ segLens.getD idx 0 - dInto
      · rw [if_pos hseg]
        apply ih
        have h1 : (0 : ℝ) < (total - next) / sKm :=
          div_pos (by linarith [hguard.1]) hs
        have h2 : 0 < ⌈(total - next) / sKm⌉ := Int.ceil_pos.mpr h1
        have h3 : ⌈(total - (next + sKm)) / sKm⌉ = ⌈(total - next) / sKm⌉ - 1 := by
          rw [show (total - (next + sKm)) / sKm = (total - next) / sKm - 1 by
            field_simp <;> ring]
          exact Int.ceil_sub_one _
        rw [h3]
        omega
      · rw [if_neg hseg]
        apply ih
        have := hguard.2
        omega
    · rw [if_neg hguard]
      simp

/-- Claim C9: for every finite route — including routes with duplicate
consecutive points, i.e. zero-length segments — and every positive target
spacing, the sampler loop reaches its natural exit (the canonical fuel is
never exhausted), so `generateEvenlySpacedPoints` terminates with a finite
waypoint list; the only division in the loop body (the dead local `fraction`)
is total in this model and unused. -/
theorem sampler_terminates (routeCoords : List (ℝ × ℝ)) (s : ℝ) (hs : 0 < s) :
    ∃ r, samplerRun routeCoords s = some r ∧
      (2 ≤ routeCoords.length → generateEvenlySpacedPoints routeCoords s = r) := by
  have hsk : 0 < s / 1000 := by positivity
  have hne : s / 1000 ≠ 0 := ne_of_gt hsk
  have h3 : ⌈((segmentLengthsOf routeCoords).sum - s / 1000) / (s / 1000)⌉ =
      ⌈(segmentLengthsOf routeCoords).sum / (s / 1000)⌉ - 1 := by
    rw [show ((segmentLengthsOf routeCoords).sum - s / 1000) / (s / 1000) =
      (segmentLengthsOf routeCoords).sum / (s / 1000) - 1 by field_simp <;> ring]
    exact Int.ceil_sub_one _
  have hiso := loopGo_isSome routeCoords (segmentLengthsOf routeCoords)
    ((segmentLengthsOf routeCoords).sum) hsk
    (samplerFuel routeCoords (segmentLengthsOf routeCoords).sum (s / 1000))
    0 (s / 1000) 0 0
    [⟨routeCoords.getD 0 (0, 0),
      calculateInitialCompassBearing (routeCoords.getD 0 (0, 0))
        (routeCoords.getD 1 (0, 0))⟩]
    (by simp only [samplerFuel]; rw [h3]; omega)
  obtain ⟨r, hr⟩ := Option.isSome_iff_exists.mp hiso
  refine ⟨r, hr, fun hlen => ?_⟩
  rw [generateEvenlySpacedPoints, if_neg (by omega)]
  rw [show samplerRun routeCoords s = some r from hr]
  rfl

/-- Claim C9 (witness): a concrete route with duplicate consecutive points
(one zero-length segment) and the default 20 m spacing terminates. -/
theorem sampler_terminates_witness :
    ∃ r, samplerRun [((0 : ℝ), (0 : ℝ)), (0, 0), (1, 0)] 20 = some r ∧
      (2 ≤ ([((0 : ℝ), (0 : ℝ)), (0, 0), (1, 0)] : List (ℝ × ℝ)).length →
        generateEvenlySpacedPoints [((0 : ℝ), (0 : ℝ)), (0, 0), (1, 0)] 20 = r) :=
  sampler_terminates [((0 : ℝ), (0 : ℝ)), (0, 0), (1, 0)] 20 (by norm_num)

lemma toRadians_toDegrees (x : ℝ) : toRadians (toDegrees x) = x := by
  simp only [toRadians, toDegrees]
  field_simp

lemma toDegrees_toRadians (x : ℝ) : toDegrees (toRadians x) = x := by
  simp only [toRadians, toDegrees]
  field_simp

lemma abs_complex_mk (x y : ℝ) :
    Complex.abs ⟨y, x⟩ = Real.sqrt (y * y + x * x) := by
  rw [Complex.abs_apply, Complex.normSq_mk]

lemma sin_atan2 (x y : ℝ) :
    Real.sin (atan2 x y) = x / Real.sqrt (y * y + x * x) := by
  rw [atan2, Complex.sin_arg, abs_complex_mk]

lemma cos_atan2 (x y : ℝ) (h : (⟨y, x⟩ : ℂ) ≠ 0) :
    Real.cos (atan2 x y) = y / Real.sqrt (y * y + x * x) := by
  rw [atan2, Complex.cos_arg h, abs_complex_mk]

lemma atan2_sin_cos {t : ℝ} (h1 : -π < t) (h2 : t ≤ π) :
    atan2 (Real.sin t) (Real.cos t) = t := by
  rw [atan2, show (⟨Real.cos t, Real.sin t⟩ : ℂ) =
    (Real.cos t : ℂ) + (Real.sin t : ℂ) * Complex.I from
      Complex.mk_eq_add_mul_I _ _, Complex.ofReal_cos, Complex.ofReal_sin]
  exact Complex.arg_cos_add_sin_mul_I ⟨h1, h2⟩

lemma atan2_smul {r : ℝ} (hr : 0 < r) (x y : ℝ) :
    atan2 (r * x) (r * y) = atan2 x y := by
  rw [atan2, atan2, show (⟨r * y, r * x⟩ : ℂ) = (r : ℂ) * ⟨y, x⟩ from by
    apply Complex.ext <;> simp]
  exact Complex.arg_real_mul _ hr

lemma jsMod_shift {a b : ℝ} (hb : 0 < b) (h1 : b ≤ a) (h2 : a < 2 * b) :
    jsMod a b = a - b := by
  rw [jsMod, show ⌊a / b⌋ = 1 from Int.floor_eq_iff.mpr
    ⟨by rw [le_div_iff hb]; push_cast; linarith,
     by rw [div_lt_iff hb]; push_cast; linarith⟩]
  push_cast
  ring

lemma jsMod_small {a b : ℝ} (hb : 0 < b) (h1 : 0 ≤ a) (h2 : a < b) :
    jsMod a b = a := by
  rw [jsMod, show ⌊a / b⌋ = 0 from Int.floor_eq_iff.mpr
    ⟨by push_cast; exact div_nonneg h1 hb.le,
     by rw [div_lt_iff hb]; push_cast; linarith⟩]
  push_cast
  ring

lemma dest_AB_sq (φ θ δ : ℝ) :
    (Real.cos δ - Real.sin φ *
        (Real.sin φ * Real.cos δ + Real.cos φ * Real.sin δ * Real.cos θ)) ^ 2 +
      (Real.sin θ * Real.sin δ * Real.cos φ) ^ 2 =
    (Real.cos φ) ^ 2 *
      (1 - (Real.sin φ * Real.cos δ + Real.cos φ * Real.sin δ * Real.cos θ) ^ 2) := by
  have h1 := Real.sin_sq_add_cos_sq φ
  have h2 := Real.sin_sq_add_cos_sq δ
  have h3 := Real.sin_sq_add_cos_sq θ
  linear_combination ((Real.sin φ * Real.cos δ + Real.cos φ * Real.sin δ * Real.cos θ) ^ 2 -
      Real.cos δ ^ 2) * h1 + (Real.cos φ ^ 2 * Real.sin δ ^ 2) * h3 + Real.cos φ ^ 2 * h2

lemma dest_AB_prod (φ θ δ₁ δ₂ : ℝ) :
    (Real.cos δ₁ - Real.sin φ *
        (Real.sin φ * Real.cos δ₁ + Real.cos φ * Real.sin δ₁ * Real.cos θ)) *
      (Real.cos δ₂ - Real.sin φ *
        (Real.sin φ * Real.cos δ₂ + Real.cos φ * Real.sin δ₂ * Real.cos θ)) +
    (Real.sin θ * Real.sin δ₁ * Real.cos φ) *
      (Real.sin θ * Real.sin δ₂ * Real.cos φ) =
    (Real.cos φ) ^ 2 *
      (Real.cos δ₂ * Real.cos δ₁ + Real.sin δ₂ * Real.sin δ₁ -
        (Real.sin φ * Real.cos δ₁ + Real.cos φ * Real.sin δ₁ * Real.cos θ) *
          (Real.sin φ * Real.cos δ₂ + Real.cos φ * Real.sin δ₂ * Real.cos θ)) := by
  have h1 := Real.sin_sq_add_cos_sq φ
  have h3 := Real.sin_sq_add_cos_sq θ
  linear_combination
    ((Real.sin φ * Real.cos δ₁ + Real.cos φ * Real.sin δ₁ * Real.cos θ) *
        (Real.sin φ * Real.cos δ₂ + Real.cos φ * Real.sin δ₂ * Real.cos θ) -
      Real.cos δ₁ * Real.cos δ₂) * h1 +
    (Real.cos φ ^ 2 * Real.sin δ₁ * Real.sin δ₂) * h3

lemma dest_sqrt (φ θ δ : ℝ) (hv : 0 ≤ Real.cos φ) :
    Real.sqrt (bAux φ θ δ * bAux φ θ δ + aAux φ θ δ * aAux φ θ δ) =
      Real.cos φ * Real.sqrt (1 - gAux φ θ δ ^ 2) := by
  rw [show bAux φ θ δ * bAux φ θ δ + aAux φ θ δ * aAux φ θ δ =
      (Real.cos φ) ^ 2 * (1 - gAux φ θ δ ^ 2) from by
    have h := dest_AB_sq φ θ δ
    simp only [gAux, aAux, bAux]
    simp only [gAux] at *
    nlinarith [h]]
  rw [Real.sqrt_mul (sq_nonneg _), Real.sqrt_sq hv]

lemma dest_ne_zero (φ θ δ : ℝ) (hv : 0 < Real.cos φ) (hg : gAux φ θ δ ^ 2 < 1) :
    (⟨bAux φ θ δ, aAux φ θ δ⟩ : ℂ) ≠ 0 := by
  have hw : 0 < Real.sqrt (1 - gAux φ θ δ ^ 2) := Real.sqrt_pos.mpr (by nlinarith)
  have habs : Complex.abs ⟨bAux φ θ δ, aAux φ θ δ⟩ =
      Real.cos φ * Real.sqrt (1 - gAux φ θ δ ^ 2) := by
    rw [abs_complex_mk, dest_sqrt φ θ δ hv.le]
  intro h0
  rw [h0, map_zero] at habs
  nlinarith [mul_pos hv hw]

lemma dest_sinD (φ θ δ : ℝ) (hv : 0 ≤ Real.cos φ) :
    Real.sin (atan2 (aAux φ θ δ) (bAux φ θ δ)) =
      aAux φ θ δ / (Real.cos φ * Real.sqrt (1 - gAux φ θ δ ^ 2)) := by
  rw [sin_atan2, dest_sqrt φ θ δ hv]

lemma dest_cosD (φ θ δ : ℝ) (hv : 0 < Real.cos φ) (hg : gAux φ θ δ ^ 2 < 1) :
    Real.cos (atan2 (aAux φ θ δ) (bAux φ θ δ)) =
      bAux φ θ δ / (Real.cos φ * Real.sqrt (1 - gAux φ θ δ ^ 2)) := by
  rw [cos_atan2 _ _ (dest_ne_zero φ θ δ hv hg), dest_sqrt φ θ δ hv.le]

lemma bearing_x (φ θ δ : ℝ) (hv : 0 < Real.cos φ) (hg : gAux φ θ δ ^ 2 < 1) :
    Real.sin (atan2 (aAux φ θ δ) (bAux φ θ δ)) * Real.cos (Real.arcsin (gAux φ θ δ)) =
      Real.sin δ * Real.sin θ := by
  have hw : 0 < Real.sqrt (1 - gAux φ θ δ ^ 2) := Real.sqrt_pos.mpr (by nlinarith)
  rw [Real.cos_arcsin, dest_sinD φ θ δ hv.le]
  rw [div_mul_eq_mul_div, mul_div_assoc]
  rw [show Real.sqrt (1 - gAux φ θ δ ^ 2) / (Real.cos φ * Real.sqrt (1 - gAux φ θ δ ^ 2)) =
      1 / Real.cos φ from by field_simp; ring]
  simp only [aAux]
  field_simp
  ring

lemma bearing_y (φ θ δ : ℝ) (hv : 0 < Real.cos φ) (hg : gAux φ θ δ ^ 2 < 1) :
    Real.cos φ * Real.sin (Real.arcsin (gAux φ θ δ)) -
      Real.sin φ * Real.cos (Real.arcsin (gAux φ θ δ)) *
        Real.cos (atan2 (aAux φ θ δ) (bAux φ θ δ)) =
      Real.sin δ * Real.cos θ := by
  have hw : 0 < Real.sqrt (1 - gAux φ θ δ ^ 2) := Real.sqrt_pos.mpr (by nlinarith)
  have hb1 : -1 ≤ gAux φ θ δ := by nlinarith
  have hb2 : gAux φ θ δ ≤ 1 := by nlinarith
  rw [Real.sin_arcsin hb1 hb2, Real.cos_arcsin, dest_cosD φ θ δ hv hg]
  rw [show Real.sin φ * Real.sqrt (1 - gAux φ θ δ ^ 2) *
      (bAux φ θ δ / (Real.cos φ * Real.sqrt (1 - gAux φ θ δ ^ 2))) =
      Real.sin φ * bAux φ θ δ / Real.cos φ from by field_simp; ring]
  have h1 := Real.sin_sq_add_cos_sq φ
  field_simp
  simp only [bAux, gAux]
  linear_combination (Real.sin φ * Real.cos δ + Real.cos φ * Real.sin δ * Real.cos θ) * h1

lemma dest_eval (lat lon b d : ℝ)
    (hb1 : -1 ≤ gAux (toRadians lat) (toRadians b) (d / 6371))
    (hb2 : gAux (toRadians lat) (toRadians b) (d / 6371) ≤ 1) :
    calculateDestinationPoint (lat, lon) b d =
      (toDegrees (Real.arcsin (gAux (toRadians lat) (toRadians b) (d / 6371))),
       toDegrees (toRadians lon +
         atan2 (aAux (toRadians lat) (toRadians b) (d / 6371))
           (bAux (toRadians lat) (toRadians b) (d / 6371)))) := by
  simp only [gAux, aAux, bAux] at hb1 hb2 ⊢
  simp only [calculateDestinationPoint]
  rw [Real.sin_arcsin hb1 hb2]

/-- Claim C5 (amended): for every point `P` with `|latitude| < 90` (not a
pole), every bearing `b ∈ [0, 360)`, and every distance `0 < d` less than half
the Earth's circumference (`d < 6371·π`), provided the computed destination is
not itself a pole (the `hpole` bound), the initial compass bearing from `P` to
`destinationPoint(P, b, d)` equals `b` exactly in real arithmetic — in
particular within the claimed 1e-3 degrees. -/
theorem bearing_roundtrip (lat lon b d : ℝ)
    (hlat : |lat| < 90) (hb0 : 0 ≤ b) (hb1 : b < 360) (hd0 : 0 < d)
    (hd1 : d < 6371 * π)
    (hpole : |Real.sin (toRadians lat) * Real.cos (d / 6371) +
      Real.cos (toRadians lat) * Real.sin (d / 6371) * Real.cos (toRadians b)| < 1) :
    calculateInitialCompassBearing (lat, lon)
      (calculateDestinationPoint (lat, lon) b d) = b := by
  have hπ := Real.pi_pos
  have hgabs : |gAux (toRadians lat) (toRadians b) (d / 6371)| < 1 := by
    simpa [gAux] using hpole
  have hg2 : gAux (toRadians lat) (toRadians b) (d / 6371) ^ 2 < 1 :=
    (sq_lt_one_iff_abs_lt_one _).mpr hgabs
  have hgb1 : -1 ≤ gAux (toRadians lat) (toRadians b) (d / 6371) :=
    (abs_lt.mp hgabs).1.le
  have hgb2 : gAux (toRadians lat) (toRadians b) (d / 6371) ≤ 1 :=
    (abs_lt.mp hgabs).2.le
  have hv : 0 < Real.cos (toRadians lat) := by
    apply Real.cos_pos_of_mem_Ioo
    rcases abs_lt.mp hlat with ⟨h1, h2⟩
    constructor
    · simp only [toRadians]; nlinarith
    · simp only [toRadians]; nlinarith
  have hδ0 : 0 < d / 6371 := by positivity
  have hδπ : d / 6371 < π := by
    rw [div_lt_iff (by norm_num : (0:ℝ) < 6371)]
    linarith
  have hsδ : 0 < Real.sin (d / 6371) := Real.sin_pos_of_pos_of_lt_pi hδ0 hδπ
  rw [dest_eval lat lon b d hgb1 hgb2]
  simp only [calculateInitialCompassBearing]
  have hdiff : toRadians (toDegrees (toRadians lon +
      atan2 (aAux (toRadians lat) (toRadians b) (d / 6371))
        (bAux (toRadians lat) (toRadians b) (d / 6371))) - lon) =
      atan2 (aAux (toRadians lat) (toRadians b) (d / 6371))
        (bAux (toRadians lat) (toRadians b) (d / 6371)) := by
    simp only [toRadians, toDegrees]
    field_simp
    ring
  rw [hdiff, toRadians_toDegrees,
    bearing_x (toRadians lat) (toRadians b) (d / 6371) hv hg2,
    bearing_y (toRadians lat) (toRadians b) (d / 6371) hv hg2,
    atan2_smul hsδ]
  by_cases hble : b ≤ 180
  · rw [atan2_sin_cos (t := toRadians b)
      (by simp only [toRadians]; nlinarith)
      (by simp only [toRadians]; nlinarith)]
    rw [toDegrees_toRadians]
    rw [jsMod_shift (by norm_num) (by linarith) (by linarith)]
    ring
  · push_neg at hble
    rw [show Real.sin (toRadians b) = Real.sin (toRadians b - 2 * π) from
      (Real.sin_sub_two_pi _).symm]
    rw [show Real.cos (toRadians b) = Real.cos (toRadians b - 2 * π) from
      (Real.cos_sub_two_pi _).symm]
    rw [atan2_sin_cos (t := toRadians b - 2 * π)
      (by simp only [toRadians]; nlinarith)
      (by simp only [toRadians]; nlinarith)]
    rw [show toDegrees (toRadians b - 2 * π) = b - 360 from by
      simp only [toRadians, toDegrees]; field_simp; ring]
    rw [show b - 360 + 360 = b from by ring]
    rw [jsMod_small (by norm_num) (by linarith) (by linarith)]

lemma atan2_zero_zero : atan2 0 0 = 0 := by
  rw [atan2, show (⟨0, 0⟩ : ℂ) = 0 from by apply Complex.ext <;> simp]
  exact Complex.arg_zero

/-- Claim C5 (witness): from the equator point `(0, 0)` with bearing 90° and
distance 1 km, the round trip returns exactly 90°. -/
theorem bearing_roundtrip_witness :
    calculateInitialCompassBearing (0, 0) (calculateDestinationPoint (0, 0) 90 1) =
      90 :=
  bearing_roundtrip 0 0 90 1 (by norm_num) (by norm_num) (by norm_num)
    (by norm_num) (by nlinarith [Real.pi_gt_three])
    (by
      rw [show toRadians (0 : ℝ) = 0 from by simp [toRadians],
        show toRadians (90 : ℝ) = π / 2 from by rw [toRadians]; ring]
      simp)

/-- Claim C5 (counterexample): at the north pole the round trip fails: from
`P = (90, 0)` with bearing 90° and distance 1 km, the recomputed initial
bearing is 180°, which is off the requested 90° by far more than 1e-3
degrees.  (At the pole `cos lat1 = 0` collapses the longitude update to
`atan2 0 0 = 0`, and the bearing back out of the pole degenerates.) -/
theorem bearing_roundtrip_pole_cex :
    |calculateInitialCompassBearing (90, 0)
      (calculateDestinationPoint (90, 0) 90 1) - 90| > 1 / 1000 := by
  have hπ := Real.pi_pos
  have h90 : toRadians (90 : ℝ) = π / 2 := by rw [toRadians]; ring
  have hδπ : (1 : ℝ) / 6371 < π := by nlinarith [Real.pi_gt_three]
  have hsδ : 0 < Real.sin (1 / 6371) :=
    Real.sin_pos_of_pos_of_lt_pi (by norm_num) hδπ
  have hc1 : Real.cos (1 / 6371) ≤ 1 := Real.cos_le_one _
  have hc2 : (-1 : ℝ) ≤ Real.cos (1 / 6371) := Real.neg_one_le_cos _
  have hdest : calculateDestinationPoint (90, 0) 90 1 =
      (toDegrees (Real.arcsin (Real.cos (1 / 6371))), 0) := by
    simp only [calculateDestinationPoint]
    rw [show toRadians (0 : ℝ) = 0 from by simp [toRadians], h90]
    simp only [Real.sin_pi_div_two, Real.cos_pi_div_two, one_mul, zero_mul,
      mul_zero, add_zero, zero_add]
    rw [Real.sin_arcsin hc2 hc1]
    simp [atan2_zero_zero, toDegrees]
  rw [hdest]
  simp only [calculateInitialCompassBearing]
  rw [h90, toRadians_toDegrees]
  rw [show toRadians ((0 : ℝ) - 0) = 0 from by simp [toRadians]]
  simp only [Real.sin_zero, Real.cos_zero, Real.sin_pi_div_two,
    Real.cos_pi_div_two, zero_mul, mul_one, zero_sub, one_mul]
  rw [Real.cos_arcsin]
  rw [show (1 : ℝ) - Real.cos (1 / 6371) ^ 2 = Real.sin (1 / 6371) ^ 2 from by
    nlinarith [Real.sin_sq_add_cos_sq ((1 : ℝ) / 6371)]]
  rw [Real.sqrt_sq hsδ.le]
  rw [show atan2 0 (-Real.sin (1 / 6371)) = π from by
    rw [atan2, show (⟨-Real.sin (1 / 6371), 0⟩ : ℂ) =
      ((-Real.sin (1 / 6371) : ℝ) : ℂ) from rfl]
    exact Complex.arg_ofReal_of_neg (by linarith)]
  rw [show toDegrees π = 180 from by rw [toDegrees]; field_simp]
  rw [jsMod_shift (by norm_num) (by norm_num) (by norm_num)]
  norm_num

lemma toRadians_toDegrees_sub (x y : ℝ) :
    toRadians (toDegrees x - toDegrees y) = x - y := by
  simp only [toRadians, toDegrees]
  field_simp
  ring

set_option maxHeartbeats 1600000 in
lemma dist_dest_dest (lat lon bdeg : ℝ) {d₁ d₂ : ℝ}
    (hlat : |lat| < 90) (h12 : d₁ ≤ d₂) (hπ2 : d₂ - d₁ ≤ 6371 * π)
    (hga : |gAux (toRadians lat) (toRadians bdeg) (d₁ / 6371)| < 1)
    (hgb : |gAux (toRadians lat) (toRadians bdeg) (d₂ / 6371)| < 1) :
    distance (calculateDestinationPoint (lat, lon) bdeg d₁)
      (calculateDestinationPoint (lat, lon) bdeg d₂) = d₂ - d₁ := by
  have hπ := Real.pi_pos
  have hv : 0 < Real.cos (toRadians lat) := by
    apply Real.cos_pos_of_mem_Ioo
    rcases abs_lt.mp hlat with ⟨h1, h2⟩
    constructor
    · simp only [toRadians]; nlinarith
    · simp only [toRadians]; nlinarith
  have hg1sq : gAux (toRadians lat) (toRadians bdeg) (d₁ / 6371) ^ 2 < 1 :=
    (sq_lt_one_iff_abs_lt_one _).mpr hga
  have hg2sq : gAux (toRadians lat) (toRadians bdeg) (d₂ / 6371) ^ 2 < 1 :=
    (sq_lt_one_iff_abs_lt_one _).mpr hgb
  rw [dest_eval lat lon bdeg d₁ (abs_lt.mp hga).1.le (abs_lt.mp hga).2.le,
    dest_eval lat lon bdeg d₂ (abs_lt.mp hgb).1.le (abs_lt.mp hgb).2.le]
  simp only [distance]
  rw [toRadians_toDegrees_sub, toRadians_toDegrees_sub,
    toRadians_toDegrees, toRadians_toDegrees]
  set g1 := gAux (toRadians lat) (toRadians bdeg) (d₁ / 6371) with hg1def
  set g2 := gAux (toRadians lat) (toRadians bdeg) (d₂ / 6371) with hg2def
  set A1 := aAux (toRadians lat) (toRadians bdeg) (d₁ / 6371) with hA1def
  set A2 := aAux (toRadians lat) (toRadians bdeg) (d₂ / 6371) with hA2def
  set B1 := bAux (toRadians lat) (toRadians bdeg) (d₁ / 6371) with hB1def
  set B2 := bAux (toRadians lat) (toRadians bdeg) (d₂ / 6371) with hB2def
  set v := Real.cos (toRadians lat) with hvdef
  set w1 := Real.sqrt (1 - g1 ^ 2) with hw1def
  set w2 := Real.sqrt (1 - g2 ^ 2) with hw2def
  have hw1 : 0 < w1 := Real.sqrt_pos.mpr (by nlinarith)
  have hw2 : 0 < w2 := Real.sqrt_pos.mpr (by nlinarith)
  have hcosdiff : Real.cos (Real.arcsin g2 - Real.arcsin g1) =
      w2 * w1 + g2 * g1 := by
    rw [Real.cos_sub, Real.cos_arcsin, Real.cos_arcsin,
      Real.sin_arcsin (abs_lt.mp hgb).1.le (abs_lt.mp hgb).2.le,
      Real.sin_arcsin (abs_lt.mp hga).1.le (abs_lt.mp hga).2.le,
      ← hw1def, ← hw2def]
  have hcosD1 : Real.cos (atan2 A1 B1) = B1 / (v * w1) := by
    rw [hA1def, hB1def, dest_cosD _ _ _ hv hg1sq, ← hg1def, ← hw1def, ← hvdef]
  have hcosD2 : Real.cos (atan2 A2 B2) = B2 / (v * w2) := by
    rw [hA2def, hB2def, dest_cosD _ _ _ hv hg2sq, ← hg2def, ← hw2def, ← hvdef]
  have hsinD1 : Real.sin (atan2 A1 B1) = A1 / (v * w1) := by
    rw [hA1def, hB1def, dest_sinD _ _ _ hv.le, ← hg1def, ← hw1def, ← hvdef]
  have hsinD2 : Real.sin (atan2 A2 B2) = A2 / (v * w2) := by
    rw [hA2def, hB2def, dest_sinD _ _ _ hv.le, ← hg2def, ← hw2def, ← hvdef]
  have hcosDelta : Real.cos (atan2 A2 B2 - atan2 A1 B1) =
      (B2 * B1 + A2 * A1) / ((v * w2) * (v * w1)) := by
    rw [Real.cos_sub, hcosD1, hcosD2, hsinD1, hsinD2]
    field_simp
  have hprod : B2 * B1 + A2 * A1 =
      v ^ 2 * (Real.cos (d₂ / 6371) * Real.cos (d₁ / 6371) +
        Real.sin (d₂ / 6371) * Real.sin (d₁ / 6371) - g2 * g1) := by
    have h := dest_AB_prod (toRadians lat) (toRadians bdeg) (d₂ / 6371) (d₁ / 6371)
    rw [hB1def, hB2def, hA1def, hA2def, hg1def, hg2def, hvdef]
    simp only [gAux, aAux, bAux]
    simp only [gAux] at h
    linarith [h]
  have halfsq : ∀ x : ℝ, Real.sin (x / 2) * Real.sin (x / 2) =
      (1 - Real.cos x) / 2 := by
    intro x
    have h := Real.sin_sq_eq_half_sub (x / 2)
    rw [show 2 * (x / 2) = x from by ring] at h
    nlinarith [h]
  rw [show toRadians lon + atan2 A2 B2 - (toRadians lon + atan2 A1 B1) =
    atan2 A2 B2 - atan2 A1 B1 from by ring]
  rw [halfsq, halfsq, hcosdiff, hcosDelta, hprod,
    Real.cos_arcsin, Real.cos_arcsin, ← hw1def, ← hw2def]
  rw [show (1 - (w2 * w1 + g2 * g1)) / 2 + w1 * w2 *
      ((1 - v ^ 2 * (Real.cos (d₂ / 6371) * Real.cos (d₁ / 6371) +
        Real.sin (d₂ / 6371) * Real.sin (d₁ / 6371) - g2 * g1) /
          (v * w2 * (v * w1))) / 2) =
      (1 - Real.cos (d₂ / 6371 - d₁ / 6371)) / 2 from by
    rw [Real.cos_sub]
    field_simp
    ring]
  have hΔ0 : 0 ≤ d₂ / 6371 - d₁ / 6371 := by
    have : d₁ / 6371 ≤ d₂ / 6371 := div_le_div_of_nonneg_right h12 (by norm_num)
    linarith
  have hΔπ : d₂ / 6371 - d₁ / 6371 ≤ π := by
    rw [show d₂ / 6371 - d₁ / 6371 = (d₂ - d₁) / 6371 from by ring]
    rw [div_le_iff (by norm_num : (0:ℝ) < 6371)]
    linarith
  have hsqa : Real.sqrt ((1 - Real.cos (d₂ / 6371 - d₁ / 6371)) / 2) =
      Real.sin ((d₂ / 6371 - d₁ / 6371) / 2) := by
    rw [show (1 - Real.cos (d₂ / 6371 - d₁ / 6371)) / 2 =
        Real.sin ((d₂ / 6371 - d₁ / 6371) / 2) ^ 2 from by
      have h := Real.sin_sq_eq_half_sub ((d₂ / 6371 - d₁ / 6371) / 2)
      rw [show 2 * ((d₂ / 6371 - d₁ / 6371) / 2) = d₂ / 6371 - d₁ / 6371 from by
        ring] at h
      nlinarith [h]]
    exact Real.sqrt_sq
      (Real.sin_nonneg_of_nonneg_of_le_pi (by linarith) (by linarith))
  have hsq1a : Real.sqrt (1 - (1 - Real.cos (d₂ / 6371 - d₁ / 6371)) / 2) =
      Real.cos ((d₂ / 6371 - d₁ / 6371) / 2) := by
    rw [show 1 - (1 - Real.cos (d₂ / 6371 - d₁ / 6371)) / 2 =
        Real.cos ((d₂ / 6371 - d₁ / 6371) / 2) ^ 2 from by
      have h := Real.cos_sq ((d₂ / 6371 - d₁ / 6371) / 2)
      rw [show 2 * ((d₂ / 6371 - d₁ / 6371) / 2) = d₂ / 6371 - d₁ / 6371 from by
        ring] at h
      nlinarith [h]]
    exact Real.sqrt_sq (Real.cos_nonneg_of_mem_Icc ⟨by linarith, by linarith⟩)
  rw [hsqa, hsq1a, atan2_sin_cos (by linarith) (by linarith)]
  field_simp
  ring

lemma dest_zero (lat lon bdeg : ℝ) (hlat : |lat| ≤ 90) :
    calculateDestinationPoint (lat, lon) bdeg 0 = (lat, lon) := by
  have hπ := Real.pi_pos
  simp only [calculateDestinationPoint]
  rw [show (0 : ℝ) / 6371 = 0 from by norm_num]
  simp only [Real.cos_zero, Real.sin_zero, mul_one, mul_zero, zero_mul, add_zero]
  have harcsin : Real.arcsin (Real.sin (toRadians lat)) = toRadians lat := by
    apply Real.arcsin_sin
    · rcases abs_le.mp hlat with ⟨h1, h2⟩
      simp only [toRadians]; nlinarith
    · rcases abs_le.mp hlat with ⟨h1, h2⟩
      simp only [toRadians]; nlinarith
  rw [harcsin]
  have h2 : atan2 0 (1 - Real.sin (toRadians lat) * Real.sin (toRadians lat)) = 0 := by
    rw [atan2, show (⟨1 - Real.sin (toRadians lat) * Real.sin (toRadians lat), 0⟩ : ℂ) =
      ((1 - Real.sin (toRadians lat) * Real.sin (toRadians lat) : ℝ) : ℂ) from rfl]
    apply Complex.arg_ofReal_of_nonneg
    nlinarith [Real.sin_sq_add_cos_sq (toRadians lat),
      sq_nonneg (Real.cos (toRadians lat))]
  rw [h2, add_zero, toDegrees_toRadians, toDegrees_toRadians]

lemma dist01 : distance ((0 : ℝ), (0 : ℝ)) ((1 : ℝ), (0 : ℝ)) =
    6371 * (π / 180) := by
  have hπ := Real.pi_pos
  have hπ4 : π < 4 := Real.pi_lt_315.trans (by norm_num)
  simp only [distance]
  rw [show toRadians ((1 : ℝ) - 0) = π / 180 from by rw [toRadians]; ring,
    show toRadians ((0 : ℝ) - 0) = 0 from by simp [toRadians],
    show toRadians (0 : ℝ) = 0 from by simp [toRadians],
    show toRadians (1 : ℝ) = π / 180 from by rw [toRadians]; ring]
  rw [show (0 : ℝ) / 2 = 0 from by norm_num]
  simp only [Real.sin_zero, mul_zero, zero_mul, add_zero]
  rw [show π / 180 / 2 = π / 360 from by ring]
  have hsnn : 0 ≤ Real.sin (π / 360) :=
    Real.sin_nonneg_of_nonneg_of_le_pi (by positivity) (by nlinarith)
  have hcnn : 0 ≤ Real.cos (π / 360) :=
    Real.cos_nonneg_of_mem_Icc ⟨by nlinarith, by nlinarith⟩
  rw [show Real.sin (π / 360) * Real.sin (π / 360) = Real.sin (π / 360) ^ 2 from
    (sq (Real.sin (π / 360))).symm]
  rw [Real.sqrt_sq hsnn]
  rw [show 1 - Real.sin (π / 360) ^ 2 = Real.cos (π / 360) ^ 2 from by
    nlinarith [Real.sin_sq_add_cos_sq (π / 360)]]
  rw [Real.sqrt_sq hcnn]
  rw [atan2_sin_cos (by nlinarith) (by nlinarith)]
  ring

lemma loopGo_straight (A B : ℝ × ℝ) {s : ℝ} (hs : 0 < s) (L : ℝ) :
    ∀ (fuel : ℕ) (next : ℝ) (res : List Waypoint),
      (⌈(L - next) / s⌉).toNat < fuel →
      loopGo [A, B] [L] s L fuel 0 next 0 0 res =
        some (res ++ (List.range (⌈(L - next) / s⌉).toNat).map fun k =>
          ⟨calculateDestinationPoint A (calculateInitialCompassBearing A B)
            (next + k * s), calculateInitialCompassBearing A B⟩) := by
  intro fuel
  induction fuel with
  | zero => intro next res h; omega
  | succ fuel ih =>
    intro next res h
    by_cases hnext : next < L
    · rw [loopGo, if_pos ⟨hnext, by norm_num⟩,
        if_pos (by simpa using hnext.le :
          next - 0 ≤ List.getD [L] 0 0 - (0 : ℝ))]
      have h1 : 0 < ⌈(L - next) / s⌉ :=
        Int.ceil_pos.mpr (div_pos (by linarith) hs)
      have h3 : ⌈(L - (next + s)) / s⌉ = ⌈(L - next) / s⌉ - 1 := by
        rw [show (L - (next + s)) / s = (L - next) / s - 1 from by
          field_simp <;> ring]
        exact Int.ceil_sub_one _
      rw [show (0 : ℝ) + (next - 0) = next from by ring]
      rw [ih (next + s) _ (by omega)]
      congr 1
      rw [show (⌈(L - next) / s⌉).toNat = (⌈(L - (next + s)) / s⌉).toNat + 1 from by
        omega]
      rw [List.range_succ_eq_map, List.map_cons, List.map_map,
        List.append_assoc, List.singleton_append]
      congr 1
      congr 1
      · simp
      · apply List.map_congr_left
        intro k _
        simp only [Function.comp]
        congr 2
        push_cast
        ring
    · rw [loopGo, if_neg (fun hc => hnext hc.1)]
      rw [show (⌈(L - next) / s⌉).toNat = 0 from by
        have : ⌈(L - next) / s⌉ ≤ (0 : ℤ) := Int.ceil_le.mpr (by
          push_cast
          exact div_nonpos_iff.mpr (Or.inr ⟨by linarith, hs.le⟩))
        omega]
      simp

lemma gen_straight (A B : ℝ × ℝ) {s : ℝ} (hs : 0 < s) :
    generateEvenlySpacedPoints [A, B] (1000 * s) =
      ⟨A, calculateInitialCompassBearing A B⟩ ::
        (List.range ((⌈distance A B / s⌉ - 1).toNat)).map (fun k =>
          ⟨calculateDestinationPoint A (calculateInitialCompassBearing A B)
            ((k + 1) * s), calculateInitialCompassBearing A B⟩) := by
  have hceil : ⌈(distance A B - s) / s⌉ = ⌈distance A B / s⌉ - 1 := by
    rw [show (distance A B - s) / s = distance A B / s - 1 from by
      field_simp <;> ring]
    exact Int.ceil_sub_one _
  have hfuel : (⌈(distance A B - s) / s⌉).toNat <
      samplerFuel [A, B] (distance A B) s := by
    simp only [samplerFuel, List.length_cons, List.length_nil]
    rw [hceil]
    omega
  have hrun : samplerRun [A, B] (1000 * s) =
      some (⟨A, calculateInitialCompassBearing A B⟩ ::
        (List.range ((⌈distance A B / s⌉ - 1).toNat)).map (fun k =>
          ⟨calculateDestinationPoint A (calculateInitialCompassBearing A B)
            ((k + 1) * s), calculateInitialCompassBearing A B⟩)) := by
    simp only [samplerRun, segmentLengthsOf, List.tail_cons, List.zip_cons_cons,
      List.zip_nil_right, List.map_cons, List.map_nil, List.sum_cons,
      List.sum_nil, add_zero, List.getD_cons_zero, List.getD_cons_succ]
    rw [show 1000 * s / 1000 = s from by ring]
    rw [loopGo_straight A B hs (distance A B) _ s _ hfuel]
    rw [List.singleton_append, hceil]
    congr 1
    congr 1
    apply List.map_congr_left
    intro k _
    congr 2
    push_cast
    ring
  simp only [generateEvenlySpacedPoints]
  rw [if_neg (by simp), hrun]
  rfl

/-- Claim C1 (amended): on a straight two-point route `[A, B]` of great-circle
length `L = distance A B` with target spacing `s > 0` kilometres (spacing
argument `1000 * s` metres), the sampler emits the initial point followed by
exactly `(⌈L/s⌉ - 1)` interior waypoints — this equals `⌊L/s⌋` when `s` does
not divide `L` exactly, and `L/s - 1` when it does — with interior waypoint
`k` placed at route distance `(k+1)·s` along the initial bearing; away from
the poles consecutive placements `d₁ ≤ d₂` are exactly `d₂ - d₁` apart by
haversine distance (so consecutive waypoints are exactly `s` apart, well
within the claimed 1%), and the distance-0 placement is the start point
itself.  No waypoint is ever emitted at the destination, even when `L` is an
exact multiple of `s` (the loop guard is strict). -/
theorem sampler_straight_route (A B : ℝ × ℝ) (s : ℝ) (hs : 0 < s) :
    generateEvenlySpacedPoints [A, B] (1000 * s) =
      ⟨A, calculateInitialCompassBearing A B⟩ ::
        (List.range ((⌈distance A B / s⌉ - 1).toNat)).map (fun k =>
          ⟨calculateDestinationPoint A (calculateInitialCompassBearing A B)
            ((k + 1) * s), calculateInitialCompassBearing A B⟩) ∧
    (∀ d₁ d₂ : ℝ, |A.1| < 90 → d₁ ≤ d₂ → d₂ - d₁ ≤ 6371 * π →
      |gAux (toRadians A.1) (toRadians (calculateInitialCompassBearing A B))
        (d₁ / 6371)| < 1 →
      |gAux (toRadians A.1) (toRadians (calculateInitialCompassBearing A B))
        (d₂ / 6371)| < 1 →
      distance
        (calculateDestinationPoint A (calculateInitialCompassBearing A B) d₁)
        (calculateDestinationPoint A (calculateInitialCompassBearing A B) d₂) =
        d₂ - d₁) ∧
    (|A.1| ≤ 90 →
      calculateDestinationPoint A (calculateInitialCompassBearing A B) 0 = A) := by
  refine ⟨gen_straight A B hs, fun d₁ d₂ h1 h2 h3 h4 h5 => ?_, fun h => ?_⟩
  · exact dist_dest_dest A.1 A.2 (calculateInitialCompassBearing A B) h1 h2 h3 h4 h5
  · exact dest_zero A.1 A.2 (calculateInitialCompassBearing A B) h

/-- Claim C1 (witness): on the straight route from `(0,0)` to `(1,0)` with
spacing one third of the route length, the first consecutive waypoint pair
(the start placement at distance 0 and the interior placement at distance
`L/3`) is exactly `L/3` kilometres apart. -/
theorem sampler_straight_route_witness :
    0 < distance ((0 : ℝ), (0 : ℝ)) ((1 : ℝ), (0 : ℝ)) / 3 ∧
    distance
      (calculateDestinationPoint ((0 : ℝ), (0 : ℝ))
        (calculateInitialCompassBearing ((0 : ℝ), (0 : ℝ)) ((1 : ℝ), (0 : ℝ))) 0)
      (calculateDestinationPoint ((0 : ℝ), (0 : ℝ))
        (calculateInitialCompassBearing ((0 : ℝ), (0 : ℝ)) ((1 : ℝ), (0 : ℝ)))
        (distance ((0 : ℝ), (0 : ℝ)) ((1 : ℝ), (0 : ℝ)) / 3)) =
      distance ((0 : ℝ), (0 : ℝ)) ((1 : ℝ), (0 : ℝ)) / 3 - 0 := by
  have hπ := Real.pi_pos
  have hπ4 : π < 4 := Real.pi_lt_315.trans (by norm_num)
  have hL := dist01
  have hpos : 0 < distance ((0 : ℝ), (0 : ℝ)) ((1 : ℝ), (0 : ℝ)) / 3 := by
    rw [hL]; positivity
  refine ⟨hpos, ?_⟩
  refine (sampler_straight_route ((0 : ℝ), (0 : ℝ)) ((1 : ℝ), (0 : ℝ)) _
    hpos).2.1 0 _ (by norm_num) hpos.le ?_ ?_ ?_
  · rw [hL]
    nlinarith
  · simp [gAux, toRadians]
  · rw [show ((0 : ℝ), (0 : ℝ)).1 = (0 : ℝ) from rfl]
    rw [show toRadians (0 : ℝ) = 0 from by simp [toRadians]]
    simp only [gAux, Real.sin_zero, Real.cos_zero, zero_mul, one_mul, zero_add]
    rw [hL]
    rw [show 6371 * (π / 180) / 3 / 6371 = π / 540 from by ring]
    calc |Real.sin (π / 540) *
        Real.cos (toRadians (calculateInitialCompassBearing
          ((0 : ℝ), (0 : ℝ)) ((1 : ℝ), (0 : ℝ))))|
        ≤ |Real.sin (π / 540)| := by
          rw [abs_mul]
          exact mul_le_of_le_one_right (abs_nonneg _) (Real.abs_cos_le_one _)
      _ < 1 := by
          rw [abs_of_nonneg (Real.sin_nonneg_of_nonneg_of_le_pi (by positivity)
            (by nlinarith))]
          have := Real.sin_lt (show 0 < π / 540 from by positivity)
          nlinarith

/-- Claim C1 (counterexample): on the straight route from `(0,0)` to `(1,0)`
of length `L`, with spacing `s = L/2` — so that a spacing multiple lands
exactly on the destination — the sampler emits only 1 interior waypoint
(2 waypoints in total, none at the destination), while the claim demands
`floor(L/s) = 2` interior waypoints plus the initial point (3 in total),
including one at the destination. -/
theorem sampler_exact_multiple_cex :
    (generateEvenlySpacedPoints [((0 : ℝ), (0 : ℝ)), ((1 : ℝ), (0 : ℝ))]
        (1000 * (distance ((0 : ℝ), (0 : ℝ)) ((1 : ℝ), (0 : ℝ)) / 2))).length = 2 ∧
    1 + (⌊distance ((0 : ℝ), (0 : ℝ)) ((1 : ℝ), (0 : ℝ)) /
        (distance ((0 : ℝ), (0 : ℝ)) ((1 : ℝ), (0 : ℝ)) / 2)⌋).toNat = 3 := by
  have hπ := Real.pi_pos
  have hL := dist01
  have hLpos : 0 < distance ((0 : ℝ), (0 : ℝ)) ((1 : ℝ), (0 : ℝ)) := by
    rw [hL]; positivity
  have hs2 : 0 < distance ((0 : ℝ), (0 : ℝ)) ((1 : ℝ), (0 : ℝ)) / 2 := by
    positivity
  have hdiv : distance ((0 : ℝ), (0 : ℝ)) ((1 : ℝ), (0 : ℝ)) /
      (distance ((0 : ℝ), (0 : ℝ)) ((1 : ℝ), (0 : ℝ)) / 2) = 2 := by
    rw [div_div_eq_mul_div, mul_comm, mul_div_assoc, div_self hLpos.ne', mul_one]
  constructor
  · rw [gen_straight ((0 : ℝ), (0 : ℝ)) ((1 : ℝ), (0 : ℝ)) hs2]
    simp only [List.length_cons, List.length_map, List.length_range]
    rw [hdiv]
    norm_num
  · rw [hdiv]
    norm_num
    decide
